import Mathlib

/-!
Shallow embedding of the schedule-resolution engine of `src/app.py`
(Treatment Regimen Planner).

Python dictionaries / JSON values are modelled by `PyVal`; Python
exceptions by `PyError`; fallible code runs in `Except PyError`.
Dates are modelled as integer day offsets: every `datetime` operation the
source performs is whole-day `timedelta` addition, so a date is an `Int`
and `date + timedelta(days=k)` is `+ k`.  The call `datetime.datetime.now()`
at the top of `create_treatment_timeline` is modelled by an explicit
integer parameter `now`.  Numeric record fields are read as integers
(`PyVal.toIntE`), matching the integer arithmetic the source performs on
them.
-/

inductive PyVal : Type where
  | vStr (s : String)
  | vInt (n : Int)
  | vList (xs : List PyVal)
  | vDict (kvs : List (String × PyVal))

inductive PyError : Type where
  | keyError (key : String)
  | attributeError (attr : String)
  | typeError
  deriving DecidableEq

/-- Association-list lookup, first match wins (Python dict keys are unique). -/
def assocLookup : List (String × PyVal) → String → Option PyVal
  | [], _ => none
  | (k, v) :: rest, key => if k = key then some v else assocLookup rest key

/-- Total field accessor: `some` value of key `key` when `v` is a dict holding it. -/
def PyVal.getField : PyVal → String → Option PyVal
  | .vDict kvs, key => assocLookup kvs key
  | _, _ => none

/-- Python subscript `v[key]` with a string key: `KeyError` on a dict missing the
key, `TypeError` on non-dict values. -/
def PyVal.getItem : PyVal → String → Except PyError PyVal
  | .vDict kvs, key =>
    match assocLookup kvs key with
    | some v => .ok v
    | none => .error (.keyError key)
  | _, _ => .error .typeError

/-- Python membership `key in v` for a string key: key membership on dicts,
element membership on lists, substring on strings, `TypeError` on ints. -/
def PyVal.hasKey : PyVal → String → Except PyError Bool
  | .vDict kvs, key => .ok (assocLookup kvs key).isSome
  | .vList xs, key => .ok (xs.any fun v => match v with | .vStr s => s == key | _ => false)
  | .vStr s, key => .ok (decide (1 < (s.splitOn key).length))
  | .vInt _, _ => .error .typeError

/-- Coerce to the integer the source's arithmetic needs; `TypeError` otherwise. -/
def PyVal.toIntE : PyVal → Except PyError Int
  | .vInt n => .ok n
  | _ => .error .typeError

/-- Iterating a Python value as a list; `TypeError` on non-lists. -/
def PyVal.toListE : PyVal → Except PyError (List PyVal)
  | .vList xs => .ok xs
  | _ => .error .typeError

/-- `v[key]` followed by use as an integer. -/
def PyVal.intItem (v : PyVal) (key : String) : Except PyError Int := do
  let x ← v.getItem key
  x.toIntE

/-- Python `d in xs` for an integer `d` and a list of values: true iff some
element is the integer `d` (int/str comparison is `False` in Python). -/
def listHasInt (d : Int) (xs : List PyVal) : Bool :=
  xs.any fun v => match v with | .vInt n => n == d | _ => false

/-- Python `day in drug["days"]`: element membership on a list, key membership
on a dict (no integer keys in this model, hence false), `TypeError` otherwise. -/
def pyMemInt (d : Int) : PyVal → Except PyError Bool
  | .vList xs => .ok (listHasInt d xs)
  | .vDict _ => .ok false
  | _ => .error .typeError

/-- Python `range(a, b + 1)` as the closed integer interval `[a, b]`. -/
def rangeClosed (a b : Int) : List Int :=
  (List.range (b - a + 1).toNat).map fun i : Nat => a + (i : Int)

/-- Monadic map in `Except PyError`, stopping at the first error
(a Python `for` loop appending one result per element). -/
def exMap {α β : Type} (f : α → Except PyError β) : List α → Except PyError (List β)
  | [] => .ok []
  | x :: xs =>
    match f x with
    | .error e => .error e
    | .ok y =>
      match exMap f xs with
      | .error e => .error e
      | .ok ys => .ok (y :: ys)

/-- Monadic filter-map in `Except PyError` (a Python loop appending a result
only for elements that produce one). -/
def exFilterMap {α β : Type} (f : α → Except PyError (Option β)) :
    List α → Except PyError (List β)
  | [] => .ok []
  | x :: xs =>
    match f x with
    | .error e => .error e
    | .ok y? =>
      match exFilterMap f xs with
      | .error e => .error e
      | .ok ys => .ok (match y? with | some y => y :: ys | none => ys)

/-- Monadic concat-map in `Except PyError` (nested Python loops appending into
one shared list). -/
def exFlat {α β : Type} (f : α → Except PyError (List β)) :
    List α → Except PyError (List β)
  | [] => .ok []
  | x :: xs =>
    match f x with
    | .error e => .error e
    | .ok ys =>
      match exFlat f xs with
      | .error e => .error e
      | .ok zs => .ok (ys ++ zs)

/-- One `(drug_name, dose, route)` triple of a `CycleDayEntry`
(the dict appended to `day_drugs` in `create_cycle_calendar`). -/
structure DrugEntry where
  name : PyVal
  dose : PyVal
  route : PyVal

/-- One per-day record of the cycle calendar (`calendar_data` element). -/
structure CycleDayEntry where
  day : Int
  drugs : List DrugEntry
  has_treatment : Bool

/-- One Gantt row of `create_treatment_timeline` (`timeline_data` element). -/
structure TimelineEvent where
  course : PyVal
  cycle : String
  drug : PyVal
  start : Int
  finish : Int

/-- Character-list version of string startswith (kernel-reducible). -/
def charsStartWith : List Char → List Char → Bool
  | [], _ => true
  | _ :: _, [] => false
  | p :: ps, c :: cs => (p == c) && charsStartWith ps cs

/-- Python `s.startswith(p)`. -/
def pyStartsWith (s p : String) : Bool :=
  charsStartWith p.data s.data

/-- `src/app.py` lines 17–23: `get_treatment_courses`.  Iterates `data.items()`
(`AttributeError` on non-dicts) and keeps values whose key starts with
`"course"`. -/
def get_treatment_courses : PyVal → Except PyError (List PyVal)
  | .vDict kvs => .ok ((kvs.filter fun kv => pyStartsWith kv.1 "course").map Prod.snd)
  | _ => .error (.attributeError "items")

/-- `src/app.py` lines 32–47: the per-drug body of the day loop in
`create_cycle_calendar`.  Mirrors the source's branch structure exactly:
`if "day" in drug and drug["day"] == day: ... elif "days" in drug and day in
drug["days"]: ...`, the multi-day dose being `drug["maintenance_dose"] if
day > 1 else drug["loading_dose"]` (only the selected branch is evaluated),
and field reads in source order (single-day: name, dose, route;
multi-day: dose first, then name, route). -/
def drugOnDay (day : Int) (drug : PyVal) : Except PyError (Option DrugEntry) := do
  let hasDay ← drug.hasKey "day"
  let singleMatch ←
    if hasDay then do
      let v ← drug.getItem "day"
      .ok (match v with | .vInt n => n == day | _ => false)
    else
      .ok false
  if singleMatch then do
    let nm ← drug.getItem "name"
    let ds ← drug.getItem "dose"
    let rt ← drug.getItem "route"
    .ok (some ⟨nm, ds, rt⟩)
  else do
    let hasDays ← drug.hasKey "days"
    let multiMatch ←
      if hasDays then do
        let dv ← drug.getItem "days"
        pyMemInt day dv
      else
        .ok false
    if multiMatch then do
      let dose ←
        if day > 1 then drug.getItem "maintenance_dose" else drug.getItem "loading_dose"
      let nm ← drug.getItem "name"
      let rt ← drug.getItem "route"
      .ok (some ⟨nm, dose, rt⟩)
    else
      .ok none

/-- `src/app.py` lines 30–53: one iteration of the day loop of
`create_cycle_calendar` (the `course["drugs"]` lookup happens inside the day
loop in the source, hence here per day). -/
def dayEntry (course : PyVal) (day : Int) : Except PyError CycleDayEntry := do
  let drugsV ← course.getItem "drugs"
  let drugs ← drugsV.toListE
  let dayDrugs ← exFilterMap (drugOnDay day) drugs
  .ok ⟨day, dayDrugs, decide (0 < dayDrugs.length)⟩

/-- `src/app.py` lines 25–55: `create_cycle_calendar(course, cycle_num)`.
Days run over `range(1, cycle_length + 1)`; `cycle_num` is never read. -/
def create_cycle_calendar (course : PyVal) (cycle_num : Int) :
    Except PyError (List CycleDayEntry) := do
  let cl ← course.intItem "cycle_length"
  exMap (dayEntry course) (rangeClosed 1 cl)

/-- `src/app.py` lines 106–129: the per-drug body of the cycle loop of
`create_treatment_timeline`.  Note the branch test is `if "day" in drug:`
(no value comparison, unlike the calendar) and the multi-day branch reads no
dose or route fields at all. -/
def drugTimeline (courseName : PyVal) (cycleLabel : String) (cycleStart : Int)
    (drug : PyVal) : Except PyError (List TimelineEvent) := do
  let hasDay ← drug.hasKey "day"
  if hasDay then do
    let dv ← drug.getItem "day"
    let d ← dv.toIntE
    let nm ← drug.getItem "name"
    .ok [⟨courseName, cycleLabel, nm, cycleStart + (d - 1), cycleStart + (d - 1) + 1⟩]
  else do
    let hasDays ← drug.hasKey "days"
    if hasDays then do
      let daysV ← drug.getItem "days"
      let days ← daysV.toListE
      exMap (fun dv => do
        let d ← dv.toIntE
        let nm ← drug.getItem "name"
        .ok (⟨courseName, cycleLabel, nm, cycleStart + (d - 1), cycleStart + (d - 1) + 1⟩ :
          TimelineEvent)) days
    else
      .ok []

/-- `src/app.py` lines 103–129: one cycle of a course in
`create_treatment_timeline`: `cycle_start = current_date +
timedelta(days=(cycle-1)*cycle_length)`, then all drugs of the course
(`course["drugs"]` is looked up inside the cycle loop in the source). -/
def cycleEvents (course : PyVal) (courseName : PyVal) (cl : Int) (currentDate : Int)
    (cyc : Int) : Except PyError (List TimelineEvent) := do
  let cycleStart := currentDate + (cyc - 1) * cl
  let drugsV ← course.getItem "drugs"
  let drugs ← drugsV.toListE
  exFlat (drugTimeline courseName (s!"Cycle {cyc}") cycleStart) drugs

/-- `src/app.py` lines 91–129: the course loop of `create_treatment_timeline`,
threading `current_date`: course `i > 0` starts when course `i-1`'s
`cycles * cycle_length` days complete. -/
def timelineGo : List PyVal → Int → Except PyError (List TimelineEvent)
  | [], _ => .ok []
  | course :: rest, currentDate => do
    let courseName ← course.getItem "name"
    let cl ← course.intItem "cycle_length"
    let cycles ← course.intItem "cycles"
    let evs ← exFlat (cycleEvents course courseName cl currentDate) (rangeClosed 1 cycles)
    let restEvs ← timelineGo rest (currentDate + cycles * cl)
    .ok (evs ++ restEvs)

/-- `src/app.py` lines 89–145: `create_treatment_timeline(courses)` with
`datetime.now()` modelled by `now`.  `if not timeline_data: return None` is the
`none` result (the chart built from a non-empty `timeline_data` is presentation,
so the `some` case carries the event list itself). -/
def create_treatment_timeline (courses : List PyVal) (now : Int) :
    Except PyError (Option (List TimelineEvent)) := do
  let td ← timelineGo courses now
  .ok (if td.isEmpty then none else some td)

/-! ### Specification-side definitions (for the refinement claim about the
timeline).  These follow the spec's words (§4.3 of `spec.md`), not the source:
per-course start dates by the recurrence `start_i = start_{i-1} +
cycles_{i-1} * cycle_length_{i-1}`, cycle `c` starting at
`course_start + (c-1) * cycle_length`, and one event per administration day
`d` at `cycle_start + (d-1)` with end one day later. -/

/-- Total accessor used by the spec-side definitions. -/
def fieldD (v : PyVal) (key : String) : PyVal :=
  (v.getField key).getD (.vStr "")

/-- Total integer field accessor used by the spec-side definitions. -/
def intD (v : PyVal) (key : String) : Int :=
  match v.getField key with
  | some (.vInt n) => n
  | _ => 0

/-- Total list field accessor used by the spec-side definitions. -/
def listD (v : PyVal) (key : String) : List PyVal :=
  match v.getField key with
  | some (.vList xs) => xs
  | _ => []

/-- Total integer coercion used in proofs about integer-only day lists. -/
def toIntD : PyVal → Int
  | .vInt n => n
  | _ => 0

/-- Spec §4.3 step 4: a drug's administration days — its `day` for the
single-day shape, the members of `days` for the multi-day shape. -/
def specAdminDays (drug : PyVal) : List Int :=
  match drug.getField "day" with
  | some (.vInt d) => [d]
  | some _ => []
  | none =>
    match drug.getField "days" with
    | some (.vList ds) => ds.filterMap fun v => match v with | .vInt n => some n | _ => none
    | _ => []

/-- Spec §4.3 steps 3–4: all events of one course started at `start`. -/
def specCourseEvents (course : PyVal) (start : Int) : List TimelineEvent :=
  (rangeClosed 1 (intD course "cycles")).flatMap fun c =>
    (listD course "drugs").flatMap fun drug =>
      (specAdminDays drug).map fun d =>
        ⟨fieldD course "name", s!"Cycle {c}", fieldD drug "name",
          start + (c - 1) * intD course "cycle_length" + (d - 1),
          start + (c - 1) * intD course "cycle_length" + (d - 1) + 1⟩

/-- Spec §4.3 steps 1–2: the whole timeline, with the course-start
recurrence `start_i = start_{i-1} + cycles_{i-1} * cycle_length_{i-1}`. -/
def specTimeline : List PyVal → Int → List TimelineEvent
  | [], _ => []
  | course :: rest, start =>
    specCourseEvents course start ++
      specTimeline rest (start + intD course "cycles" * intD course "cycle_length")

/-! ### Well-formedness predicates (hypotheses of the conditional theorems). -/

/-- A drug record the timeline resolver fully consumes: a dict whose `day`
field, when present, is an integer; otherwise whose `days` field, when
present, is a list of integers; with a `name` field whenever a branch that
reads one can run. -/
def drugWF (drug : PyVal) : Bool :=
  match drug with
  | .vDict _ =>
    match drug.getField "day" with
    | some (.vInt _) => (drug.getField "name").isSome
    | some _ => false
    | none =>
      match drug.getField "days" with
      | some (.vList ds) =>
        (ds.all fun v => match v with | .vInt _ => true | _ => false) &&
          (drug.getField "name").isSome
      | some _ => false
      | none => true
  | _ => false

/-- The field is present and an integer. -/
def isIntField (v : PyVal) (key : String) : Bool :=
  match v.getField key with
  | some (.vInt _) => true
  | _ => false

/-- The `drugs` field is present, a list, and all members satisfy `p`. -/
def drugsAll (p : PyVal → Bool) (course : PyVal) : Bool :=
  match course.getField "drugs" with
  | some (.vList ds) => ds.all p
  | _ => false

/-- A course record the timeline resolver fully consumes. -/
def courseWF (course : PyVal) : Bool :=
  (course.getField "name").isSome &&
  isIntField course "cycle_length" &&
  isIntField course "cycles" &&
  drugsAll drugWF course

/-- Well-formed course list for the timeline refinement. -/
def coursesWF (courses : List PyVal) : Bool :=
  courses.all courseWF

/-- A drug contributing no timeline events: no `day` field, and `days`
absent or the empty list. -/
def eventlessDrug (drug : PyVal) : Bool :=
  match drug with
  | .vDict _ =>
    (drug.getField "day").isNone &&
      (match drug.getField "days" with
       | none => true
       | some (.vList []) => true
       | some _ => false)
  | _ => false

/-- A well-formed course whose drugs contribute no timeline events. -/
def eventlessCourse (course : PyVal) : Bool :=
  (course.getField "name").isSome &&
  isIntField course "cycle_length" &&
  isIntField course "cycles" &&
  drugsAll eventlessDrug course

/-- A multi-day drug that never schedules day 1 and lacks `loading_dose`
while carrying every field the resolver can read for it. -/
def noLoadDrug (drug : PyVal) : Bool :=
  match drug with
  | .vDict _ =>
    (drug.getField "day").isNone &&
    (match drug.getField "days" with
     | some (.vList ds) => !listHasInt 1 ds
     | _ => false) &&
    (drug.getField "loading_dose").isNone &&
    (drug.getField "name").isSome &&
    (drug.getField "route").isSome &&
    (drug.getField "maintenance_dose").isSome
  | _ => false

/-- A course of such drugs, with the fields `create_cycle_calendar` reads. -/
def noLoadCourse (course : PyVal) : Bool :=
  isIntField course "cycle_length" && drugsAll noLoadDrug course

/-- Not a dict (Python: has no `.items` attribute). -/
def PyVal.isDictB : PyVal → Bool
  | .vDict _ => true
  | _ => false

/-- A one-drug course with the given cycle length (used to state the
failure-mode theorems compactly). -/
def oneDrugCourse (cl : Int) (drug : PyVal) : PyVal :=
  .vDict [("cycle_length", .vInt cl), ("drugs", .vList [drug])]

/-- The `days` field never matches a day of `[1, cl]`: absent, or a list whose
integer members all lie outside `[1, cl]` (non-integer members never equal an
integer day under Python `==`). -/
def outOfRangeDays (cl : Int) (drug : PyVal) : Bool :=
  match drug.getField "days" with
  | none => true
  | some (.vList dds) =>
    dds.all fun v =>
      match v with
      | .vInt d => decide (d < 1 ∨ cl < d)
      | _ => true
  | some _ => false

/-- A drug dict contributing to no day of `[1, cl]`: its `day` value, when
present, is an integer outside `[1, cl]`, and its `days` members (if any) all
lie outside `[1, cl]` as well. -/
def outOfRangeDrug (cl : Int) (drug : PyVal) : Bool :=
  match drug with
  | .vDict _ =>
    (match drug.getField "day" with
     | some (.vInt d) => decide (d < 1 ∨ cl < d)
     | some _ => false
     | none => true) && outOfRangeDays cl drug
  | _ => false

/-! ### Basic lemmas about the embedding's building blocks. -/

theorem ok_bind {α β : Type} (a : α) (f : α → Except PyError β) :
    (Except.ok a : Except PyError α) >>= f = f a := rfl

theorem pyMemInt_list (d : Int) (xs : List PyVal) :
    pyMemInt d (.vList xs) = .ok (listHasInt d xs) := rfl

theorem toListE_list (xs : List PyVal) : (PyVal.vList xs).toListE = .ok xs := rfl

theorem err_bind {α β : Type} (e : PyError) (f : α → Except PyError β) :
    (Except.error e : Except PyError α) >>= f = .error e := rfl

theorem getField_dict (kvs : List (String × PyVal)) (k : String) :
    (PyVal.vDict kvs).getField k = assocLookup kvs k := rfl

theorem getItem_of_getField {v : PyVal} {k : String} {x : PyVal}
    (h : v.getField k = some x) : v.getItem k = .ok x := by
  cases v with
  | vDict kvs =>
    simp only [PyVal.getField] at h
    simp [PyVal.getItem, h]
  | vStr s => simp [PyVal.getField] at h
  | vInt n => simp [PyVal.getField] at h
  | vList xs => simp [PyVal.getField] at h

theorem getItem_none_of_getField {kvs : List (String × PyVal)} {k : String}
    (h : (PyVal.vDict kvs).getField k = none) :
    (PyVal.vDict kvs).getItem k = .error (.keyError k) := by
  simp only [PyVal.getField] at h
  simp [PyVal.getItem, h]

theorem hasKey_of_getField_some {v : PyVal} {k : String} {x : PyVal}
    (h : v.getField k = some x) : v.hasKey k = .ok true := by
  cases v with
  | vDict kvs =>
    simp only [PyVal.getField] at h
    simp [PyVal.hasKey, h]
  | vStr s => simp [PyVal.getField] at h
  | vInt n => simp [PyVal.getField] at h
  | vList xs => simp [PyVal.getField] at h

theorem hasKey_of_dict_getField_none {kvs : List (String × PyVal)} {k : String}
    (h : (PyVal.vDict kvs).getField k = none) :
    (PyVal.vDict kvs).hasKey k = .ok false := by
  simp only [PyVal.getField] at h
  simp [PyVal.hasKey, h]

theorem rangeClosed_length (a b : Int) :
    (rangeClosed a b).length = (b - a + 1).toNat := by
  rw [rangeClosed, List.length_map, List.length_range]

theorem rangeClosed_get (a b : Int) (i : Nat) (h : i < (rangeClosed a b).length) :
    (rangeClosed a b).get ⟨i, h⟩ = a + i := by
  simp only [rangeClosed, List.get_eq_getElem, List.getElem_map, List.getElem_range]

theorem mem_rangeClosed {a b d : Int} : d ∈ rangeClosed a b ↔ a ≤ d ∧ d ≤ b := by
  simp only [rangeClosed, List.mem_map, List.mem_range]
  constructor
  · rintro ⟨i, hi, rfl⟩
    omega
  · rintro ⟨h1, h2⟩
    exact ⟨(d - a).toNat, by omega, by omega⟩

theorem exMap_cons {α β : Type} (f : α → Except PyError β) (x : α) (xs : List α) :
    exMap f (x :: xs) =
      match f x with
      | .error e => .error e
      | .ok y =>
        match exMap f xs with
        | .error e => .error e
        | .ok ys => .ok (y :: ys) := rfl

theorem exMap_congr {α β : Type} {f : α → Except PyError β} {g : α → β} :
    ∀ {xs : List α}, (∀ x ∈ xs, f x = .ok (g x)) → exMap f xs = .ok (xs.map g)
  | [], _ => rfl
  | x :: xs, h => by
    have hx : f x = .ok (g x) := h x (List.mem_cons_self x xs)
    have hxs : exMap f xs = .ok (xs.map g) :=
      exMap_congr fun y hy => h y (List.mem_cons_of_mem x hy)
    rw [exMap_cons, hx, hxs]
    rfl

theorem exMap_ok_length {α β : Type} {f : α → Except PyError β} :
    ∀ {xs : List α} {ys : List β}, exMap f xs = .ok ys → ys.length = xs.length
  | [], ys, h => by
    simp only [exMap] at h
    cases h
    rfl
  | x :: xs, ys, h => by
    rw [exMap_cons] at h
    cases hfx : f x with
    | error e => rw [hfx] at h; cases h
    | ok y =>
      rw [hfx] at h
      cases hrec : exMap f xs with
      | error e => rw [hrec] at h; cases h
      | ok ys2 =>
        rw [hrec] at h
        cases h
        simp [exMap_ok_length hrec]

theorem exMap_ok_get {α β : Type} {f : α → Except PyError β} :
    ∀ {xs : List α} {ys : List β}, exMap f xs = .ok ys →
      ∀ (i : Nat) (h1 : i < xs.length) (h2 : i < ys.length),
        f (xs.get ⟨i, h1⟩) = .ok (ys.get ⟨i, h2⟩)
  | [], ys, h, i, h1, h2 => by cases h1
  | x :: xs, ys, h, i, h1, h2 => by
    rw [exMap_cons] at h
    cases hfx : f x with
    | error e => rw [hfx] at h; cases h
    | ok y =>
      rw [hfx] at h
      cases hrec : exMap f xs with
      | error e => rw [hrec] at h; cases h
      | ok ys2 =>
        rw [hrec] at h
        cases h
        cases i with
        | zero => simpa using hfx
        | succ j =>
          exact exMap_ok_get hrec j (Nat.lt_of_succ_lt_succ h1) (Nat.lt_of_succ_lt_succ h2)

theorem exMap_mem {α β : Type} {f : α → Except PyError β} :
    ∀ {xs : List α} {ys : List β}, exMap f xs = .ok ys →
      ∀ {x : α}, x ∈ xs → ∃ y ∈ ys, f x = .ok y
  | [], ys, _, x, hx => by cases hx
  | a :: xs, ys, h, x, hx => by
    rw [exMap_cons] at h
    cases hfa : f a with
    | error e => rw [hfa] at h; cases h
    | ok y =>
      rw [hfa] at h
      cases hrec : exMap f xs with
      | error e => rw [hrec] at h; cases h
      | ok ys2 =>
        rw [hrec] at h
        cases h
        rcases List.mem_cons.mp hx with hEq | hMem
        · exact ⟨y, List.mem_cons_self y ys2, hEq ▸ hfa⟩
        · obtain ⟨y2, hy2, hfy2⟩ := exMap_mem hrec hMem
          exact ⟨y2, List.mem_cons_of_mem y hy2, hfy2⟩

theorem exMap_mem_rev {α β : Type} {f : α → Except PyError β} :
    ∀ {xs : List α} {ys : List β}, exMap f xs = .ok ys →
      ∀ {y : β}, y ∈ ys → ∃ x ∈ xs, f x = .ok y
  | [], ys, h, y, hy => by
    simp only [exMap] at h
    cases h
    cases hy
  | a :: xs, ys, h, y, hy => by
    rw [exMap_cons] at h
    cases hfa : f a with
    | error e => rw [hfa] at h; cases h
    | ok y1 =>
      rw [hfa] at h
      cases hrec : exMap f xs with
      | error e => rw [hrec] at h; cases h
      | ok ys2 =>
        rw [hrec] at h
        cases h
        rcases List.mem_cons.mp hy with hEq | hMem
        · exact ⟨a, List.mem_cons_self a xs, hEq ▸ hfa⟩
        · obtain ⟨x2, hx2, hfx2⟩ := exMap_mem_rev hrec hMem
          exact ⟨x2, List.mem_cons_of_mem a hx2, hfx2⟩

theorem exMap_ok_of_forall {α β : Type} {f : α → Except PyError β} :
    ∀ {xs : List α}, (∀ x ∈ xs, ∃ y, f x = .ok y) → ∃ ys, exMap f xs = .ok ys
  | [], _ => ⟨[], rfl⟩
  | x :: xs, h => by
    obtain ⟨y, hy⟩ := h x (List.mem_cons_self x xs)
    obtain ⟨ys, hys⟩ := exMap_ok_of_forall fun z hz => h z (List.mem_cons_of_mem x hz)
    exact ⟨y :: ys, by rw [exMap_cons, hy, hys]⟩

theorem exFilterMap_cons {α β : Type} (f : α → Except PyError (Option β)) (x : α)
    (xs : List α) :
    exFilterMap f (x :: xs) =
      match f x with
      | .error e => .error e
      | .ok y? =>
        match exFilterMap f xs with
        | .error e => .error e
        | .ok ys => .ok (match y? with | some y => y :: ys | none => ys) := rfl

theorem exFilterMap_congr {α β : Type} {f : α → Except PyError (Option β)}
    {g : α → Option β} :
    ∀ {xs : List α}, (∀ x ∈ xs, f x = .ok (g x)) →
      exFilterMap f xs = .ok (xs.filterMap g)
  | [], _ => rfl
  | x :: xs, h => by
    have hx : f x = .ok (g x) := h x (List.mem_cons_self x xs)
    have hxs : exFilterMap f xs = .ok (xs.filterMap g) :=
      exFilterMap_congr fun y hy => h y (List.mem_cons_of_mem x hy)
    rw [exFilterMap_cons, hx, hxs]
    cases hgx : g x <;> simp [List.filterMap_cons, hgx]

theorem exFilterMap_success {α β : Type} {f : α → Except PyError (Option β)} :
    ∀ {xs : List α} {ys : List β}, exFilterMap f xs = .ok ys →
      ∀ {x : α}, x ∈ xs → ∃ r, f x = .ok r
  | [], ys, _, x, hx => by cases hx
  | a :: xs, ys, h, x, hx => by
    rw [exFilterMap_cons] at h
    cases hfa : f a with
    | error e => rw [hfa] at h; cases h
    | ok y? =>
      rw [hfa] at h
      cases hrec : exFilterMap f xs with
      | error e => rw [hrec] at h; cases h
      | ok ys2 =>
        rcases List.mem_cons.mp hx with hEq | hMem
        · exact ⟨y?, hEq ▸ hfa⟩
        · exact exFilterMap_success hrec hMem

theorem exFilterMap_sound {α β : Type} {f : α → Except PyError (Option β)} :
    ∀ {xs : List α} {ys : List β}, exFilterMap f xs = .ok ys →
      ∀ {x : α} {y : β}, x ∈ xs → f x = .ok (some y) → y ∈ ys
  | [], ys, _, x, y, hx, _ => by cases hx
  | a :: xs, ys, h, x, y, hx, hfx => by
    rw [exFilterMap_cons] at h
    cases hfa : f a with
    | error e => rw [hfa] at h; cases h
    | ok y? =>
      rw [hfa] at h
      cases hrec : exFilterMap f xs with
      | error e => rw [hrec] at h; cases h
      | ok ys2 =>
        rw [hrec] at h
        cases h
        rcases List.mem_cons.mp hx with hEq | hMem
        · subst hEq
          rw [hfx] at hfa
          cases hfa
          exact List.mem_cons_self y ys2
        · have hy2 : y ∈ ys2 := exFilterMap_sound hrec hMem hfx
          cases y? with
          | some z => exact List.mem_cons_of_mem z hy2
          | none => exact hy2

theorem exFilterMap_ok_of_forall {α β : Type} {f : α → Except PyError (Option β)} :
    ∀ {xs : List α}, (∀ x ∈ xs, ∃ r, f x = .ok r) → ∃ ys, exFilterMap f xs = .ok ys
  | [], _ => ⟨[], rfl⟩
  | x :: xs, h => by
    obtain ⟨r, hr⟩ := h x (List.mem_cons_self x xs)
    obtain ⟨ys, hys⟩ := exFilterMap_ok_of_forall fun z hz => h z (List.mem_cons_of_mem x hz)
    cases r with
    | some y => exact ⟨y :: ys, by rw [exFilterMap_cons, hr, hys]⟩
    | none => exact ⟨ys, by rw [exFilterMap_cons, hr, hys]⟩

theorem exFlat_cons {α β : Type} (f : α → Except PyError (List β)) (x : α) (xs : List α) :
    exFlat f (x :: xs) =
      match f x with
      | .error e => .error e
      | .ok ys =>
        match exFlat f xs with
        | .error e => .error e
        | .ok zs => .ok (ys ++ zs) := rfl

theorem exFlat_congr {α β : Type} {f : α → Except PyError (List β)} {g : α → List β} :
    ∀ {xs : List α}, (∀ x ∈ xs, f x = .ok (g x)) → exFlat f xs = .ok (xs.flatMap g)
  | [], _ => rfl
  | x :: xs, h => by
    have hx : f x = .ok (g x) := h x (List.mem_cons_self x xs)
    have hxs : exFlat f xs = .ok (xs.flatMap g) :=
      exFlat_congr fun y hy => h y (List.mem_cons_of_mem x hy)
    rw [exFlat_cons, hx, hxs]
    simp [List.flatMap_cons]

theorem intItem_of_getField {v : PyVal} {k : String} {n : Int}
    (h : v.getField k = some (.vInt n)) : v.intItem k = .ok n := by
  rw [PyVal.intItem, getItem_of_getField h]
  rfl

theorem isIntField_elim {v : PyVal} {k : String} (h : isIntField v k = true) :
    ∃ n : Int, v.getField k = some (.vInt n) := by
  rw [isIntField] at h
  cases hv : v.getField k with
  | none => rw [hv] at h; cases h
  | some x =>
    cases x with
    | vInt n => exact ⟨n, rfl⟩
    | vStr s => rw [hv] at h; cases h
    | vList xs => rw [hv] at h; cases h
    | vDict kvs => rw [hv] at h; cases h

theorem drugsAll_elim {p : PyVal → Bool} {course : PyVal} (h : drugsAll p course = true) :
    ∃ ds : List PyVal, course.getField "drugs" = some (.vList ds) ∧ ∀ d ∈ ds, p d = true := by
  rw [drugsAll] at h
  cases hv : course.getField "drugs" with
  | none => rw [hv] at h; cases h
  | some x =>
    cases x with
    | vList ds =>
      rw [hv] at h
      exact ⟨ds, rfl, fun d hd => List.all_eq_true.mp h d hd⟩
    | vStr s => rw [hv] at h; cases h
    | vInt n => rw [hv] at h; cases h
    | vDict kvs => rw [hv] at h; cases h

theorem isSome_elim {o : Option PyVal} (h : o.isSome = true) : ∃ x, o = some x := by
  cases o with
  | none => cases h
  | some x => exact ⟨x, rfl⟩

theorem getField_dict_of_isSome {v : PyVal} {k : String} {x : PyVal}
    (h : v.getField k = some x) : ∃ kvs, v = .vDict kvs := by
  cases v with
  | vDict kvs => exact ⟨kvs, rfl⟩
  | vStr s => simp [PyVal.getField] at h
  | vInt n => simp [PyVal.getField] at h
  | vList xs => simp [PyVal.getField] at h

theorem eventlessDrug_elim {drug : PyVal} (h : eventlessDrug drug = true) :
    (∃ kvs, drug = .vDict kvs) ∧ drug.getField "day" = none ∧
      (drug.getField "days" = none ∨ drug.getField "days" = some (.vList [])) := by
  cases drug with
  | vDict kvs =>
    simp only [eventlessDrug, Bool.and_eq_true] at h
    obtain ⟨h1, h2⟩ := h
    refine ⟨⟨kvs, rfl⟩, Option.isNone_iff_eq_none.mp h1, ?_⟩
    cases hv : (PyVal.vDict kvs).getField "days" with
    | none => exact Or.inl rfl
    | some x =>
      cases x with
      | vList ds =>
        cases ds with
        | nil => exact Or.inr rfl
        | cons d ds2 => rw [hv] at h2; cases h2
      | vStr s => rw [hv] at h2; cases h2
      | vInt n => rw [hv] at h2; cases h2
      | vDict kvs2 => rw [hv] at h2; cases h2
  | vStr s => simp [eventlessDrug] at h
  | vInt n => simp [eventlessDrug] at h
  | vList xs => simp [eventlessDrug] at h

/-! ### Helper lemmas for eventless regimens. -/

theorem drugTimeline_eventless {drug : PyVal} (h : eventlessDrug drug = true)
    (courseName : PyVal) (lbl : String) (cs : Int) :
    drugTimeline courseName lbl cs drug = .ok [] := by
  obtain ⟨⟨kvs, hkvs⟩, hday, hdays⟩ := eventlessDrug_elim h
  subst hkvs
  rw [drugTimeline, hasKey_of_dict_getField_none hday, ok_bind]
  cases hdays with
  | inl hnone =>
    rw [if_neg (by simp)]
    rw [hasKey_of_dict_getField_none hnone, ok_bind]
    rfl
  | inr hsome =>
    rw [if_neg (by simp)]
    rw [hasKey_of_getField_some hsome, ok_bind]
    rw [if_pos rfl]
    rw [getItem_of_getField hsome, ok_bind]
    rfl

theorem cycleEvents_eventless {course : PyVal} {ds : List PyVal}
    (hds : course.getField "drugs" = some (.vList ds))
    (hall : ∀ d ∈ ds, eventlessDrug d = true)
    (nm : PyVal) (cl currentDate cyc : Int) :
    cycleEvents course nm cl currentDate cyc = .ok [] := by
  rw [cycleEvents, getItem_of_getField hds, ok_bind]
  rw [show (PyVal.vList ds).toListE = .ok ds from rfl, ok_bind]
  rw [exFlat_congr (g := fun _ => []) fun d hd => drugTimeline_eventless (hall d hd) nm _ _]
  simp

theorem timelineGo_eventless :
    ∀ (courses : List PyVal), (∀ c ∈ courses, eventlessCourse c = true) →
      ∀ (now : Int), timelineGo courses now = .ok []
  | [], _, _ => rfl
  | course :: rest, h, now => by
    have hc := h course (List.mem_cons_self course rest)
    simp only [eventlessCourse, Bool.and_eq_true] at hc
    obtain ⟨⟨⟨hname, hcl⟩, hcy⟩, hdr⟩ := hc
    obtain ⟨nm, hnm⟩ := isSome_elim hname
    obtain ⟨cl, hcl'⟩ := isIntField_elim hcl
    obtain ⟨cy, hcy'⟩ := isIntField_elim hcy
    obtain ⟨ds, hds, hall⟩ := drugsAll_elim hdr
    rw [timelineGo, getItem_of_getField hnm, ok_bind]
    rw [intItem_of_getField hcl', ok_bind]
    rw [intItem_of_getField hcy', ok_bind]
    rw [exFlat_congr (g := fun _ => []) fun c _ => cycleEvents_eventless hds hall nm cl now c]
    rw [show ((rangeClosed 1 cy).flatMap fun _ => ([] : List TimelineEvent)) = [] by simp]
    rw [ok_bind]
    rw [timelineGo_eventless rest (fun c hc => h c (List.mem_cons_of_mem course hc)) (now + cy * cl)]
    rfl

/-! ### Claim theorems. -/

/-- Claim C4: the `cycle_num` argument of `create_cycle_calendar` has no
effect: for every course and every pair of cycle numbers the returned per-day
schedule is identical (the source never reads `cycle_num`). -/
theorem cycle_number_irrelevant (course : PyVal) (c1 c2 : Int) :
    create_cycle_calendar course c1 = create_cycle_calendar course c2 := rfl

/-- Counterexample to claim C5: a course record lacking all of `cycle_length`,
`cycles` and `drugs` is returned as a course by the loader without any
failure — no `MalformedInputError` (or any error) is signalled and the course
list is produced. -/
theorem loader_no_field_validation_cex :
    get_treatment_courses
      (.vDict [("indication", .vStr "breast cancer"), ("course1", .vDict [])]) =
      .ok [.vDict []] := rfl

/-- Claim C5 (amended): on input that is not a mapping the loader fails — with
Python's `AttributeError` from `data.items()`, not a `MalformedInputError` —
while course records are extracted purely by key name with no validation of
their fields: a course lacking `cycle_length`, `cycles` and `drugs` is
returned unchanged. -/
theorem loader_behavior_amended (data : PyVal) (h : data.isDictB = false) :
    get_treatment_courses data = .error (.attributeError "items") ∧
      get_treatment_courses (.vDict [("course1", .vDict [])]) = .ok [.vDict []] := by
  constructor
  · cases data with
    | vDict kvs => simp [PyVal.isDictB] at h
    | vStr s => rfl
    | vInt n => rfl
    | vList xs => rfl
  · rfl

/-- Witness for the amended C5 theorem at the concrete non-mapping input
`[]` (a JSON array). -/
theorem loader_behavior_amended_witness :
    get_treatment_courses (.vList []) = .error (.attributeError "items") ∧
      get_treatment_courses (.vDict [("course1", .vDict [])]) = .ok [.vDict []] :=
  loader_behavior_amended (.vList []) rfl

/-- Counterexample to claim C6: a single-day drug record carrying `day`,
`dose` and `route` but no `name` makes `create_cycle_calendar` fail with
`KeyError("name")` — a failure mode outside the claim's list (`dose`/`route`
for single-day drugs), and the error names only the field, not the drug. -/
theorem missing_name_failure_cex :
    create_cycle_calendar
      (.vDict [("cycle_length", .vInt 1),
        ("drugs", .vList [.vDict [("day", .vInt 1), ("dose", .vStr "60mg/m2"),
          ("route", .vStr "IV")]])]) 1 =
      .error (.keyError "name") := rfl

/-- Claim C8: for a regimen with zero courses, and more generally whenever no
course contributes a drug-administration day, the timeline resolver produces
the empty event sequence and does not fail (the source then returns its
empty-timeline indicator, `None`, instead of a chart). -/
theorem empty_timeline_ok (courses : List PyVal) (now : Int)
    (h : ∀ c ∈ courses, eventlessCourse c = true) :
    timelineGo courses now = .ok [] ∧ create_treatment_timeline courses now = .ok none := by
  have h1 := timelineGo_eventless courses h now
  refine ⟨h1, ?_⟩
  rw [create_treatment_timeline, h1, ok_bind]
  rfl

/-- Witness for C8 at the empty regimen and at a one-course regimen whose only
drug has an empty `days` set. -/
theorem empty_timeline_ok_witness :
    (timelineGo [] 3 = .ok [] ∧ create_treatment_timeline [] 3 = .ok none) ∧
    (timelineGo [.vDict [("name", .vStr "M"), ("cycle_length", .vInt 21), ("cycles", .vInt 4),
        ("drugs", .vList [.vDict [("name", .vStr "T"), ("days", .vList [])]])]] 3 = .ok [] ∧
      create_treatment_timeline
        [.vDict [("name", .vStr "M"), ("cycle_length", .vInt 21), ("cycles", .vInt 4),
          ("drugs", .vList [.vDict [("name", .vStr "T"), ("days", .vList [])]])]] 3 =
        .ok none) :=
  ⟨empty_timeline_ok [] 3 (by decide),
    empty_timeline_ok
      [.vDict [("name", .vStr "M"), ("cycle_length", .vInt 21), ("cycles", .vInt 4),
        ("drugs", .vList [.vDict [("name", .vStr "T"), ("days", .vList [])]])]] 3 (by decide)⟩

/-- A single-day-shaped drug (one with a `day` key) in the timeline resolver:
always exactly one event per cycle, regardless of any `days` set or dose
fields and regardless of whether `day` lies inside the cycle. -/
theorem drugTimeline_single {drug : PyVal} {d : Int} {dnv : PyVal}
    (hday : drug.getField "day" = some (.vInt d))
    (hname : drug.getField "name" = some dnv)
    (cnm : PyVal) (lbl : String) (cs : Int) :
    drugTimeline cnm lbl cs drug = .ok [⟨cnm, lbl, dnv, cs + (d - 1), cs + (d - 1) + 1⟩] := by
  rw [drugTimeline, hasKey_of_getField_some hday]
  rw [getItem_of_getField hday]
  rw [getItem_of_getField hname]
  rfl

/-- A single-day-shaped drug (with no `days` key) whose `day` value differs
from the current cycle day is not included, with no error. -/
theorem drugOnDay_single_nomatch {drug : PyVal} {d day : Int}
    (hday : drug.getField "day" = some (.vInt d))
    (hdays : drug.getField "days" = none)
    (hne : (d == day) = false) :
    drugOnDay day drug = .ok none := by
  obtain ⟨kvs, hkvs⟩ := getField_dict_of_isSome hday
  subst hkvs
  rw [drugOnDay, hasKey_of_getField_some hday, getItem_of_getField hday,
    hasKey_of_dict_getField_none hdays]
  simp [ok_bind, hne]

/-- Counterexample to claim C7: a course whose only drug's `day` (5) lies
outside `[1, cycle_length]` (= `[1, 2]`) resolves without any error — no
`InvalidRangeError` exists — and the drug is silently omitted from every day
of the cycle calendar. -/
theorem out_of_range_silent_cex :
    create_cycle_calendar
      (.vDict [("name", .vStr "AC"), ("cycle_length", .vInt 2), ("cycles", .vInt 1),
        ("drugs", .vList [.vDict [("name", .vStr "Doxorubicin"), ("day", .vInt 5),
          ("dose", .vStr "60mg/m2"), ("route", .vStr "IV")]])]) 1 =
      .ok [⟨1, [], false⟩, ⟨2, [], false⟩] := rfl

/-- Counterexample to claim C9: a drug carrying both `day` (= 1, with
`dose` "D") and `days` (= {2}, with `maintenance_dose` "M") is scheduled by
`create_cycle_calendar` on day 1 from its `day` field AND on day 2 from its
`days` set — the `days` set and the maintenance dose are not ignored, so the
drug is not treated exclusively as single-day by the cycle resolver. -/
theorem both_day_days_cycle_cex :
    create_cycle_calendar
      (.vDict [("cycle_length", .vInt 2),
        ("drugs", .vList [.vDict [("name", .vStr "X"), ("day", .vInt 1), ("dose", .vStr "D"),
          ("route", .vStr "IV"), ("days", .vList [.vInt 2]),
          ("maintenance_dose", .vStr "M")]])]) 1 =
      .ok [⟨1, [⟨.vStr "X", .vStr "D", .vStr "IV"⟩], true⟩,
           ⟨2, [⟨.vStr "X", .vStr "M", .vStr "IV"⟩], true⟩] := rfl

/-- Shape of any successful `dayEntry`: the produced record carries the day it
was built for and `has_treatment` is exactly "some drug was included". -/
theorem dayEntry_ok_shape {course : PyVal} {day : Int} {e : CycleDayEntry}
    (h : dayEntry course day = .ok e) :
    e.day = day ∧ e.has_treatment = decide (0 < e.drugs.length) := by
  rw [dayEntry] at h
  cases hdv : course.getItem "drugs" with
  | error err => rw [hdv, err_bind] at h; cases h
  | ok v =>
    rw [hdv, ok_bind] at h
    cases hl : v.toListE with
    | error err => rw [hl, err_bind] at h; cases h
    | ok drugs =>
      rw [hl, ok_bind] at h
      cases hfm : exFilterMap (drugOnDay day) drugs with
      | error err => rw [hfm, err_bind] at h; cases h
      | ok dd =>
        rw [hfm, ok_bind] at h
        cases h
        exact ⟨rfl, rfl⟩

/-- Inversion of a successful `dayEntry` when the course's drug list is known. -/
theorem dayEntry_ok_inv {course : PyVal} {ds : List PyVal} {day : Int} {e : CycleDayEntry}
    (hds : course.getField "drugs" = some (.vList ds))
    (h : dayEntry course day = .ok e) :
    exFilterMap (drugOnDay day) ds = .ok e.drugs := by
  rw [dayEntry, getItem_of_getField hds, ok_bind] at h
  rw [show (PyVal.vList ds).toListE = .ok ds from rfl, ok_bind] at h
  cases hfm : exFilterMap (drugOnDay day) ds with
  | error err => rw [hfm, err_bind] at h; cases h
  | ok dd =>
    rw [hfm, ok_bind] at h
    cases h
    rfl

/-- Inversion of a successful `create_cycle_calendar`. -/
theorem create_cycle_calendar_ok_inv {course : PyVal} {n cl : Int}
    {cal : List CycleDayEntry}
    (hcl : course.getField "cycle_length" = some (.vInt cl))
    (h : create_cycle_calendar course n = .ok cal) :
    exMap (dayEntry course) (rangeClosed 1 cl) = .ok cal := by
  rw [create_cycle_calendar, intItem_of_getField hcl, ok_bind] at h
  exact h

/-- Claim C3: for every course with integer `cycle_length` ≥ 1, whenever
`create_cycle_calendar` succeeds it returns exactly `cycle_length` entries,
whose `day` fields are `1..cycle_length` in increasing order, and each entry's
`has_treatment` flag is true iff at least one drug was included that day. -/
theorem cycle_calendar_shape (course : PyVal) (n cl : Int) (cal : List CycleDayEntry)
    (hcl : course.getField "cycle_length" = some (.vInt cl))
    (hok : create_cycle_calendar course n = .ok cal)
    (hpos : 1 ≤ cl) :
    cal.length = cl.toNat ∧
      (∀ (i : Nat) (h : i < cal.length), (cal.get ⟨i, h⟩).day = 1 + (i : Int)) ∧
      (∀ e ∈ cal, (e.has_treatment = true ↔ e.drugs ≠ [])) := by
  have hmap := create_cycle_calendar_ok_inv hcl hok
  have hlen : cal.length = (rangeClosed 1 cl).length := exMap_ok_length hmap
  have hlen2 : cal.length = cl.toNat := by
    rw [hlen, rangeClosed_length]
    omega
  refine ⟨hlen2, ?_, ?_⟩
  · intro i hi
    have hi2 : i < (rangeClosed 1 cl).length := hlen ▸ hi
    have hget := exMap_ok_get hmap i hi2 hi
    rw [rangeClosed_get] at hget
    exact (dayEntry_ok_shape hget).1
  · intro e he
    obtain ⟨d2, _, hde⟩ := exMap_mem_rev hmap he
    rw [(dayEntry_ok_shape hde).2]
    cases e.drugs with
    | nil => simp
    | cons x xs => simp

/-- Witness for C3 at the spec's AC example shrunk to a 3-day cycle. -/
theorem cycle_calendar_shape_witness :
    ([⟨1, [⟨.vStr "Doxorubicin", .vStr "60mg/m2", .vStr "IV"⟩], true⟩,
      ⟨2, [], false⟩, ⟨3, [], false⟩] : List CycleDayEntry).length = (3 : Int).toNat ∧
      (∀ (i : Nat) (h : i < ([⟨1, [⟨.vStr "Doxorubicin", .vStr "60mg/m2", .vStr "IV"⟩], true⟩,
          ⟨2, [], false⟩, ⟨3, [], false⟩] : List CycleDayEntry).length),
        (([⟨1, [⟨.vStr "Doxorubicin", .vStr "60mg/m2", .vStr "IV"⟩], true⟩,
          ⟨2, [], false⟩, ⟨3, [], false⟩] : List CycleDayEntry).get ⟨i, h⟩).day = 1 + (i : Int)) ∧
      (∀ e ∈ ([⟨1, [⟨.vStr "Doxorubicin", .vStr "60mg/m2", .vStr "IV"⟩], true⟩,
          ⟨2, [], false⟩, ⟨3, [], false⟩] : List CycleDayEntry),
        (e.has_treatment = true ↔ e.drugs ≠ [])) :=
  cycle_calendar_shape
    (.vDict [("name", .vStr "AC"), ("cycle_length", .vInt 3), ("cycles", .vInt 2),
      ("drugs", .vList [.vDict [("name", .vStr "Doxorubicin"), ("day", .vInt 1),
        ("dose", .vStr "60mg/m2"), ("route", .vStr "IV")]])])
    1 3
    [⟨1, [⟨.vStr "Doxorubicin", .vStr "60mg/m2", .vStr "IV"⟩], true⟩,
      ⟨2, [], false⟩, ⟨3, [], false⟩]
    rfl rfl (by decide)

/-- A `noLoadDrug` is processed without failure on any day ≥ 1: on days it is
not scheduled nothing is read; on scheduled days (all ≠ 1 since 1 is not among
its `days`) only `maintenance_dose`, `name` and `route` are read — the absent
`loading_dose` is never touched. -/
theorem noLoadDrug_on_day_ok {drug : PyVal} (h : noLoadDrug drug = true)
    {day : Int} (h1le : 1 ≤ day) :
    ∃ r, drugOnDay day drug = .ok r := by
  cases drug with
  | vDict kvs =>
    simp only [noLoadDrug, Bool.and_eq_true] at h
    obtain ⟨⟨⟨⟨⟨hd, hds⟩, hload⟩, hname⟩, hroute⟩, hmaint⟩ := h
    have hdayn : (PyVal.vDict kvs).getField "day" = none := Option.isNone_iff_eq_none.mp hd
    obtain ⟨nmv, hnm⟩ := isSome_elim hname
    obtain ⟨rtv, hrt⟩ := isSome_elim hroute
    obtain ⟨mv, hmv⟩ := isSome_elim hmaint
    have hdays : ∃ dsl, (PyVal.vDict kvs).getField "days" = some (.vList dsl) ∧
        listHasInt 1 dsl = false := by
      cases hv : (PyVal.vDict kvs).getField "days" with
      | none => rw [hv] at hds; cases hds
      | some x =>
        cases x with
        | vList dsl =>
          rw [hv] at hds
          exact ⟨dsl, rfl, by simpa using hds⟩
        | vStr s => rw [hv] at hds; cases hds
        | vInt m => rw [hv] at hds; cases hds
        | vDict kvs2 => rw [hv] at hds; cases hds
    obtain ⟨dsl, hdsl, hno1⟩ := hdays
    rw [drugOnDay, hasKey_of_dict_getField_none hdayn]
    rw [hasKey_of_getField_some hdsl, getItem_of_getField hdsl]
    simp only [ok_bind, pyMemInt_list]
    cases hmem : listHasInt day dsl with
    | false => exact ⟨none, rfl⟩
    | true =>
      have hne1 : day ≠ 1 := by
        intro heq
        rw [heq, hno1] at hmem
        cases hmem
      have hgt : day > 1 := by omega
      refine ⟨some ⟨nmv, mv, rtv⟩, ?_⟩
      rw [if_pos hgt]
      rw [getItem_of_getField hmv, getItem_of_getField hnm, getItem_of_getField hrt]
      rfl
  | vStr s => simp [noLoadDrug] at h
  | vInt m => simp [noLoadDrug] at h
  | vList xs => simp [noLoadDrug] at h

/-- Claim C10: for a course whose drugs are all multi-day with day 1 absent
from their `days` sets, a missing `loading_dose` never causes a failure —
`create_cycle_calendar` resolves the cycle successfully (the loading dose is
read only when day 1 is scheduled, the maintenance dose only on days > 1). -/
theorem loading_dose_not_read (course : PyVal) (n : Int)
    (h : noLoadCourse course = true) :
    ∃ cal, create_cycle_calendar course n = .ok cal := by
  simp only [noLoadCourse, Bool.and_eq_true] at h
  obtain ⟨hcl, hdr⟩ := h
  obtain ⟨cl, hcl2⟩ := isIntField_elim hcl
  obtain ⟨ds, hds, hall⟩ := drugsAll_elim hdr
  rw [create_cycle_calendar, intItem_of_getField hcl2, ok_bind]
  apply exMap_ok_of_forall
  intro day hday
  have h1le : 1 ≤ day := (mem_rangeClosed.mp hday).1
  obtain ⟨dd, hdd⟩ :=
    exFilterMap_ok_of_forall fun drug hdrug => noLoadDrug_on_day_ok (hall drug hdrug) h1le
  refine ⟨⟨day, dd, decide (0 < dd.length)⟩, ?_⟩
  rw [dayEntry, getItem_of_getField hds, ok_bind]
  rw [show (PyVal.vList ds).toListE = .ok ds from rfl, ok_bind]
  rw [hdd, ok_bind]

/-- Witness for C10: the `days = {3, 5}` drug from the spec's regression
example, with no `loading_dose` field at all. -/
theorem loading_dose_not_read_witness :
    ∃ cal, create_cycle_calendar
      (.vDict [("cycle_length", .vInt 5), ("cycles", .vInt 1),
        ("drugs", .vList [.vDict [("name", .vStr "Tras"), ("route", .vStr "IV"),
          ("days", .vList [.vInt 3, .vInt 5]),
          ("maintenance_dose", .vStr "6mg")]])]) 2 = .ok cal :=
  loading_dose_not_read
    (.vDict [("cycle_length", .vInt 5), ("cycles", .vInt 1),
      ("drugs", .vList [.vDict [("name", .vStr "Tras"), ("route", .vStr "IV"),
        ("days", .vList [.vInt 3, .vInt 5]),
        ("maintenance_dose", .vStr "6mg")]])]) 2 (by decide)

/-- Converse accessor lemma: a successful subscript means the field is there. -/
theorem getField_of_getItem_ok {v : PyVal} {k : String} {x : PyVal}
    (h : v.getItem k = .ok x) : v.getField k = some x := by
  cases v with
  | vDict kvs =>
    rw [PyVal.getItem] at h
    rw [getField_dict]
    cases hl : assocLookup kvs k with
    | some y => rw [hl] at h; cases h; rfl
    | none => rw [hl] at h; cases h
  | vStr s => cases h
  | vInt n => cases h
  | vList xs => cases h

theorem fieldD_of_getField {v : PyVal} {k : String} {x : PyVal}
    (h : v.getField k = some x) : fieldD v k = x := by
  rw [fieldD, h]
  rfl

/-- Evaluation of the per-drug calendar step for a multi-day drug (no `day`
key, `days` a list containing the current day): the source's
`drug["maintenance_dose"] if day > 1 else drug["loading_dose"]` expression
followed by the `name` and `route` reads. -/
theorem drugOnDay_multi_eval {kvs : List (String × PyVal)} {d : Int} {dds : List PyVal}
    (hday : (PyVal.vDict kvs).getField "day" = none)
    (hdays : (PyVal.vDict kvs).getField "days" = some (.vList dds))
    (hd : listHasInt d dds = true) :
    drugOnDay d (.vDict kvs) = (do
      let dose ← if d > 1 then (PyVal.vDict kvs).getItem "maintenance_dose"
        else (PyVal.vDict kvs).getItem "loading_dose"
      let nm ← (PyVal.vDict kvs).getItem "name"
      let rt ← (PyVal.vDict kvs).getItem "route"
      Except.ok (some ⟨nm, dose, rt⟩)) := by
  rw [drugOnDay, hasKey_of_dict_getField_none hday, hasKey_of_getField_some hdays,
    getItem_of_getField hdays]
  simp only [ok_bind, pyMemInt_list, hd]
  rfl

/-- A processed multi-day drug scheduled on day `d ≥ 1`: the produced entry
carries the `name` and `route` fields, and the dose field selected by the
source's absolute-day-1 rule. -/
theorem drugOnDay_multi_match {drug : PyVal} {d : Int} {dds : List PyVal}
    {r : Option DrugEntry}
    (hday : drug.getField "day" = none)
    (hdays : drug.getField "days" = some (.vList dds))
    (hd : listHasInt d dds = true)
    (h1 : 1 ≤ d)
    (hr : drugOnDay d drug = .ok r) :
    ∃ nmv dv rtv,
      drug.getField "name" = some nmv ∧
      drug.getField "route" = some rtv ∧
      (if d = 1 then drug.getField "loading_dose"
        else drug.getField "maintenance_dose") = some dv ∧
      r = some ⟨nmv, dv, rtv⟩ := by
  obtain ⟨kvs, hkvs⟩ := getField_dict_of_isSome hdays
  subst hkvs
  rw [drugOnDay_multi_eval hday hdays hd] at hr
  by_cases hd1 : d = 1
  · subst hd1
    rw [if_neg (by omega)] at hr
    cases hload : (PyVal.vDict kvs).getItem "loading_dose" with
    | error e => rw [hload] at hr; simp only [err_bind] at hr; cases hr
    | ok dv =>
      rw [hload] at hr
      simp only [ok_bind] at hr
      cases hnm : (PyVal.vDict kvs).getItem "name" with
      | error e => rw [hnm] at hr; simp only [err_bind] at hr; cases hr
      | ok nmv =>
        rw [hnm] at hr
        simp only [ok_bind] at hr
        cases hrt : (PyVal.vDict kvs).getItem "route" with
        | error e => rw [hrt] at hr; simp only [err_bind] at hr; cases hr
        | ok rtv =>
          rw [hrt] at hr
          simp only [ok_bind] at hr
          cases hr
          exact ⟨nmv, dv, rtv, getField_of_getItem_ok hnm, getField_of_getItem_ok hrt,
            by rw [if_pos rfl]; exact getField_of_getItem_ok hload, rfl⟩
  · have hgt : d > 1 := by omega
    rw [if_pos hgt] at hr
    cases hload : (PyVal.vDict kvs).getItem "maintenance_dose" with
    | error e => rw [hload] at hr; simp only [err_bind] at hr; cases hr
    | ok dv =>
      rw [hload] at hr
      simp only [ok_bind] at hr
      cases hnm : (PyVal.vDict kvs).getItem "name" with
      | error e => rw [hnm] at hr; simp only [err_bind] at hr; cases hr
      | ok nmv =>
        rw [hnm] at hr
        simp only [ok_bind] at hr
        cases hrt : (PyVal.vDict kvs).getItem "route" with
        | error e => rw [hrt] at hr; simp only [err_bind] at hr; cases hr
        | ok rtv =>
          rw [hrt] at hr
          simp only [ok_bind] at hr
          cases hr
          exact ⟨nmv, dv, rtv, getField_of_getItem_ok hnm, getField_of_getItem_ok hrt,
            by rw [if_neg hd1]; exact getField_of_getItem_ok hload, rfl⟩

/-- Claim C1: in a successfully resolved cycle, every multi-day drug of the
course appears on each cycle day `d ∈ [1, cycle_length]` contained in its
`days` set, with the `loading_dose` value exactly when `d = 1` and the
`maintenance_dose` value otherwise; in particular a drug with
`days = {3, 5}` gets the maintenance dose in both entries and its loading
dose is never used (see the witness). -/
theorem multiDay_dose_selection (course drug : PyVal) (n d cl : Int)
    (cal : List CycleDayEntry) (ds dds : List PyVal)
    (hok : create_cycle_calendar course n = .ok cal)
    (hcl : course.getField "cycle_length" = some (.vInt cl))
    (hds : course.getField "drugs" = some (.vList ds))
    (hmem : drug ∈ ds)
    (hday : drug.getField "day" = none)
    (hdays : drug.getField "days" = some (.vList dds))
    (hd : listHasInt d dds = true)
    (h1 : 1 ≤ d) (h2 : d ≤ cl) :
    ∃ e ∈ cal, e.day = d ∧
      ∃ ent ∈ e.drugs,
        ent.name = fieldD drug "name" ∧
        ent.dose = (if d = 1 then fieldD drug "loading_dose"
          else fieldD drug "maintenance_dose") ∧
        ent.route = fieldD drug "route" := by
  have hmap := create_cycle_calendar_ok_inv hcl hok
  have hdmem : d ∈ rangeClosed 1 cl := mem_rangeClosed.mpr ⟨h1, h2⟩
  obtain ⟨e, he, hde⟩ := exMap_mem hmap hdmem
  have hfm := dayEntry_ok_inv hds hde
  obtain ⟨r, hr⟩ := exFilterMap_success hfm hmem
  obtain ⟨nmv, dv, rtv, hnm, hrt, hdose, hrEq⟩ := drugOnDay_multi_match hday hdays hd h1 hr
  subst hrEq
  have hent : (⟨nmv, dv, rtv⟩ : DrugEntry) ∈ e.drugs := exFilterMap_sound hfm hmem hr
  refine ⟨e, he, (dayEntry_ok_shape hde).1, ⟨nmv, dv, rtv⟩, hent, ?_, ?_, ?_⟩
  · exact (fieldD_of_getField hnm).symm
  · by_cases hd1 : d = 1
    · subst hd1
      rw [if_pos rfl] at hdose ⊢
      exact (fieldD_of_getField hdose).symm
    · rw [if_neg hd1] at hdose ⊢
      exact (fieldD_of_getField hdose).symm
  · exact (fieldD_of_getField hrt).symm

/-- Witness for C1 at the spec's regression example: `days = {3, 5}` in a
5-day cycle — on day 3 and on day 5 the recorded dose is
`maintenance_dose` (the `if d = 1` test is false both times). -/
theorem multiDay_dose_selection_witness :
    (∃ e ∈ [⟨1, [], false⟩, ⟨2, [], false⟩,
        (⟨3, [⟨.vStr "Tras", .vStr "6mg", .vStr "IV"⟩], true⟩ : CycleDayEntry),
        ⟨4, [], false⟩,
        ⟨5, [⟨.vStr "Tras", .vStr "6mg", .vStr "IV"⟩], true⟩], e.day = (3 : Int) ∧
      ∃ ent ∈ e.drugs,
        ent.name = fieldD (.vDict [("name", .vStr "Tras"), ("route", .vStr "IV"),
          ("days", .vList [.vInt 3, .vInt 5]), ("loading_dose", .vStr "8mg"),
          ("maintenance_dose", .vStr "6mg")]) "name" ∧
        ent.dose = (if (3 : Int) = 1 then
            fieldD (.vDict [("name", .vStr "Tras"), ("route", .vStr "IV"),
              ("days", .vList [.vInt 3, .vInt 5]), ("loading_dose", .vStr "8mg"),
              ("maintenance_dose", .vStr "6mg")]) "loading_dose"
          else fieldD (.vDict [("name", .vStr "Tras"), ("route", .vStr "IV"),
              ("days", .vList [.vInt 3, .vInt 5]), ("loading_dose", .vStr "8mg"),
              ("maintenance_dose", .vStr "6mg")]) "maintenance_dose") ∧
        ent.route = fieldD (.vDict [("name", .vStr "Tras"), ("route", .vStr "IV"),
          ("days", .vList [.vInt 3, .vInt 5]), ("loading_dose", .vStr "8mg"),
          ("maintenance_dose", .vStr "6mg")]) "route") ∧
    (∃ e ∈ [⟨1, [], false⟩, ⟨2, [], false⟩,
        (⟨3, [⟨.vStr "Tras", .vStr "6mg", .vStr "IV"⟩], true⟩ : CycleDayEntry),
        ⟨4, [], false⟩,
        ⟨5, [⟨.vStr "Tras", .vStr "6mg", .vStr "IV"⟩], true⟩], e.day = (5 : Int) ∧
      ∃ ent ∈ e.drugs,
        ent.name = fieldD (.vDict [("name", .vStr "Tras"), ("route", .vStr "IV"),
          ("days", .vList [.vInt 3, .vInt 5]), ("loading_dose", .vStr "8mg"),
          ("maintenance_dose", .vStr "6mg")]) "name" ∧
        ent.dose = (if (5 : Int) = 1 then
            fieldD (.vDict [("name", .vStr "Tras"), ("route", .vStr "IV"),
              ("days", .vList [.vInt 3, .vInt 5]), ("loading_dose", .vStr "8mg"),
              ("maintenance_dose", .vStr "6mg")]) "loading_dose"
          else fieldD (.vDict [("name", .vStr "Tras"), ("route", .vStr "IV"),
              ("days", .vList [.vInt 3, .vInt 5]), ("loading_dose", .vStr "8mg"),
              ("maintenance_dose", .vStr "6mg")]) "maintenance_dose") ∧
        ent.route = fieldD (.vDict [("name", .vStr "Tras"), ("route", .vStr "IV"),
          ("days", .vList [.vInt 3, .vInt 5]), ("loading_dose", .vStr "8mg"),
          ("maintenance_dose", .vStr "6mg")]) "route") :=
  ⟨multiDay_dose_selection
      (.vDict [("cycle_length", .vInt 5), ("cycles", .vInt 1),
        ("drugs", .vList [.vDict [("name", .vStr "Tras"), ("route", .vStr "IV"),
          ("days", .vList [.vInt 3, .vInt 5]), ("loading_dose", .vStr "8mg"),
          ("maintenance_dose", .vStr "6mg")]])])
      (.vDict [("name", .vStr "Tras"), ("route", .vStr "IV"),
        ("days", .vList [.vInt 3, .vInt 5]), ("loading_dose", .vStr "8mg"),
        ("maintenance_dose", .vStr "6mg")])
      1 3 5
      [⟨1, [], false⟩, ⟨2, [], false⟩,
        ⟨3, [⟨.vStr "Tras", .vStr "6mg", .vStr "IV"⟩], true⟩,
        ⟨4, [], false⟩,
        ⟨5, [⟨.vStr "Tras", .vStr "6mg", .vStr "IV"⟩], true⟩]
      [.vDict [("name", .vStr "Tras"), ("route", .vStr "IV"),
        ("days", .vList [.vInt 3, .vInt 5]), ("loading_dose", .vStr "8mg"),
        ("maintenance_dose", .vStr "6mg")]]
      [.vInt 3, .vInt 5]
      rfl rfl rfl (List.mem_singleton.mpr rfl) rfl rfl (by decide) (by decide) (by decide),
    multiDay_dose_selection
      (.vDict [("cycle_length", .vInt 5), ("cycles", .vInt 1),
        ("drugs", .vList [.vDict [("name", .vStr "Tras"), ("route", .vStr "IV"),
          ("days", .vList [.vInt 3, .vInt 5]), ("loading_dose", .vStr "8mg"),
          ("maintenance_dose", .vStr "6mg")]])])
      (.vDict [("name", .vStr "Tras"), ("route", .vStr "IV"),
        ("days", .vList [.vInt 3, .vInt 5]), ("loading_dose", .vStr "8mg"),
        ("maintenance_dose", .vStr "6mg")])
      1 5 5
      [⟨1, [], false⟩, ⟨2, [], false⟩,
        ⟨3, [⟨.vStr "Tras", .vStr "6mg", .vStr "IV"⟩], true⟩,
        ⟨4, [], false⟩,
        ⟨5, [⟨.vStr "Tras", .vStr "6mg", .vStr "IV"⟩], true⟩]
      [.vDict [("name", .vStr "Tras"), ("route", .vStr "IV"),
        ("days", .vList [.vInt 3, .vInt 5]), ("loading_dose", .vStr "8mg"),
        ("maintenance_dose", .vStr "6mg")]]
      [.vInt 3, .vInt 5]
      rfl rfl rfl (List.mem_singleton.mpr rfl) rfl rfl (by decide) (by decide) (by decide)⟩

/-! ### Refinement of the timeline resolver against the spec-side timeline. -/

theorem intD_of_getField {v : PyVal} {k : String} {n : Int}
    (h : v.getField k = some (.vInt n)) : intD v k = n := by
  rw [intD, h]

theorem listD_of_getField {v : PyVal} {k : String} {xs : List PyVal}
    (h : v.getField k = some (.vList xs)) : listD v k = xs := by
  rw [listD, h]

/-- On an all-integer list, mapping over the extracted integers is mapping
over the raw values. -/
theorem ints_filterMap_map {β : Type} (f : Int → β) :
    ∀ {ds : List PyVal},
      (ds.all fun v => match v with | .vInt _ => true | _ => false) = true →
      ((ds.filterMap fun v => match v with | .vInt n => some n | _ => none).map f) =
        ds.map fun v => f (toIntD v)
  | [], _ => rfl
  | v :: ds, h => by
    rw [List.all_cons, Bool.and_eq_true] at h
    obtain ⟨hv, hds⟩ := h
    cases v with
    | vInt n =>
      rw [List.filterMap_cons]
      simp only [List.map_cons]
      rw [ints_filterMap_map f hds]
      rfl
    | vStr s => cases hv
    | vList xs => cases hv
    | vDict kvs => cases hv

/-- A well-formed drug's timeline events equal the spec-side events: one per
administration day `d`, starting at `cycleStart + (d - 1)` and ending one day
later, tagged with the course name, cycle label and drug name. -/
theorem drugTimeline_wf {drug : PyVal} (h : drugWF drug = true)
    (cnm : PyVal) (lbl : String) (cs : Int) :
    drugTimeline cnm lbl cs drug =
      .ok ((specAdminDays drug).map fun d =>
        ⟨cnm, lbl, fieldD drug "name", cs + (d - 1), cs + (d - 1) + 1⟩) := by
  cases drug with
  | vDict kvs =>
    cases hday : (PyVal.vDict kvs).getField "day" with
    | some v =>
      cases v with
      | vInt d =>
        have hname : ((PyVal.vDict kvs).getField "name").isSome = true := by
          simp only [drugWF, hday] at h
          exact h
        obtain ⟨nmv, hnm⟩ := isSome_elim hname
        rw [drugTimeline_single hday hnm]
        rw [specAdminDays, hday]
        rw [fieldD_of_getField hnm]
        rfl
      | vStr s => simp [drugWF, hday] at h
      | vList xs => simp [drugWF, hday] at h
      | vDict kvs2 => simp [drugWF, hday] at h
    | none =>
      cases hdays : (PyVal.vDict kvs).getField "days" with
      | none =>
        rw [drugTimeline, hasKey_of_dict_getField_none hday, ok_bind, if_neg (by simp),
          hasKey_of_dict_getField_none hdays, ok_bind, if_neg (by simp)]
        rw [specAdminDays, hday, hdays]
        rfl
      | some v =>
        cases v with
        | vList ds2 =>
          have h2 : (ds2.all fun v => match v with | .vInt _ => true | _ => false) = true ∧
              ((PyVal.vDict kvs).getField "name").isSome = true := by
            simp only [drugWF, hday, hdays, Bool.and_eq_true] at h
            exact h
          obtain ⟨hints, hname⟩ := h2
          obtain ⟨nmv, hnm⟩ := isSome_elim hname
          rw [drugTimeline, hasKey_of_dict_getField_none hday, ok_bind, if_neg (by simp),
            hasKey_of_getField_some hdays, ok_bind, if_pos rfl]
          rw [getItem_of_getField hdays, ok_bind, toListE_list, ok_bind]
          rw [specAdminDays, hday, hdays]
          rw [ints_filterMap_map _ hints]
          refine exMap_congr fun dv hdv => ?_
          have hint := List.all_eq_true.mp hints dv hdv
          cases dv with
          | vInt m =>
            rw [show (PyVal.vInt m).toIntE = .ok m from rfl, ok_bind,
              getItem_of_getField hnm, ok_bind]
            rw [fieldD_of_getField hnm]
            rfl
          | vStr s => cases hint
          | vList xs => cases hint
          | vDict kvs2 => cases hint
        | vStr s => simp [drugWF, hday, hdays] at h
        | vInt m => simp [drugWF, hday, hdays] at h
        | vDict kvs2 => simp [drugWF, hday, hdays] at h
  | vStr s => simp [drugWF] at h
  | vInt n => simp [drugWF] at h
  | vList xs => simp [drugWF] at h

/-- A well-formed course's per-cycle timeline events equal the spec-side ones. -/
theorem cycleEvents_wf {course : PyVal} {nmv : PyVal} {ds : List PyVal}
    (hnm : course.getField "name" = some nmv)
    (hds : course.getField "drugs" = some (.vList ds))
    (hall : ∀ d ∈ ds, drugWF d = true)
    (cl currentDate cyc : Int) :
    cycleEvents course nmv cl currentDate cyc =
      .ok (ds.flatMap fun drug => (specAdminDays drug).map fun d =>
        (⟨nmv, s!"Cycle {cyc}", fieldD drug "name",
          currentDate + (cyc - 1) * cl + (d - 1),
          currentDate + (cyc - 1) * cl + (d - 1) + 1⟩ : TimelineEvent)) := by
  simp only [cycleEvents, getItem_of_getField hds, ok_bind, toListE_list]
  exact exFlat_congr fun drug hd => drugTimeline_wf (hall drug hd) nmv _ _

/-- Refinement: on a well-formed course list the source's timeline loop
computes exactly the spec-side timeline. -/
theorem timelineGo_wf :
    ∀ (courses : List PyVal), coursesWF courses = true →
      ∀ (now : Int), timelineGo courses now = .ok (specTimeline courses now)
  | [], _, _ => rfl
  | course :: rest, h, now => by
    simp only [coursesWF, List.all_cons, Bool.and_eq_true] at h
    obtain ⟨hc, hrest⟩ := h
    simp only [courseWF, Bool.and_eq_true] at hc
    obtain ⟨⟨⟨hname, hcl⟩, hcy⟩, hdr⟩ := hc
    obtain ⟨nmv, hnm⟩ := isSome_elim hname
    obtain ⟨cl, hcl2⟩ := isIntField_elim hcl
    obtain ⟨cy, hcy2⟩ := isIntField_elim hcy
    obtain ⟨ds, hds, hall⟩ := drugsAll_elim hdr
    simp only [timelineGo, getItem_of_getField hnm, intItem_of_getField hcl2,
      intItem_of_getField hcy2, ok_bind]
    rw [exFlat_congr fun cyc _ => cycleEvents_wf hnm hds hall cl now cyc]
    simp only [ok_bind]
    rw [timelineGo_wf rest hrest (now + cy * cl)]
    simp only [ok_bind]
    rw [specTimeline, specCourseEvents, intD_of_getField hcy2, intD_of_getField hcl2,
      listD_of_getField hds, fieldD_of_getField hnm]

/-- Claim C2: in the produced timeline, course `i > 0` starts exactly
`cycles_{i-1} * cycle_length_{i-1}` days after course `i-1`'s start, cycle
`c` of a course starts at `course_start + (c-1) * cycle_length`, and every
event for administration day `d` runs from `cycle_start + (d-1)` to the next
day, tagged with the course name, the label `"Cycle {c}"` and the drug name —
i.e. the source timeline equals the spec-side `specTimeline`, which is
defined by exactly these formulas. -/
theorem timeline_refines_spec (courses : List PyVal) (now : Int)
    (h : coursesWF courses = true) :
    timelineGo courses now = .ok (specTimeline courses now) :=
  timelineGo_wf courses h now

/-- Witness for C2 on a two-course regimen: the second course starts
`2 * 3 = 6` days after the first. -/
theorem timeline_refines_spec_witness :
    timelineGo
      [.vDict [("name", .vStr "AC"), ("cycle_length", .vInt 3), ("cycles", .vInt 2),
        ("drugs", .vList [.vDict [("name", .vStr "Doxorubicin"), ("day", .vInt 1),
          ("dose", .vStr "60mg/m2"), ("route", .vStr "IV")]])],
       .vDict [("name", .vStr "T"), ("cycle_length", .vInt 2), ("cycles", .vInt 1),
        ("drugs", .vList [.vDict [("name", .vStr "Pac"), ("route", .vStr "IV"),
          ("days", .vList [.vInt 1, .vInt 2]), ("loading_dose", .vStr "L"),
          ("maintenance_dose", .vStr "M")]])]] 0 =
      .ok (specTimeline
        [.vDict [("name", .vStr "AC"), ("cycle_length", .vInt 3), ("cycles", .vInt 2),
          ("drugs", .vList [.vDict [("name", .vStr "Doxorubicin"), ("day", .vInt 1),
            ("dose", .vStr "60mg/m2"), ("route", .vStr "IV")]])],
         .vDict [("name", .vStr "T"), ("cycle_length", .vInt 2), ("cycles", .vInt 1),
          ("drugs", .vList [.vDict [("name", .vStr "Pac"), ("route", .vStr "IV"),
            ("days", .vList [.vInt 1, .vInt 2]), ("loading_dose", .vStr "L"),
            ("maintenance_dose", .vStr "M")]])]] 0) :=
  timeline_refines_spec
    [.vDict [("name", .vStr "AC"), ("cycle_length", .vInt 3), ("cycles", .vInt 2),
      ("drugs", .vList [.vDict [("name", .vStr "Doxorubicin"), ("day", .vInt 1),
        ("dose", .vStr "60mg/m2"), ("route", .vStr "IV")]])],
     .vDict [("name", .vStr "T"), ("cycle_length", .vInt 2), ("cycles", .vInt 1),
      ("drugs", .vList [.vDict [("name", .vStr "Pac"), ("route", .vStr "IV"),
        ("days", .vList [.vInt 1, .vInt 2]), ("loading_dose", .vStr "L"),
        ("maintenance_dose", .vStr "M")]])]] 0 (by decide)

/-! ### Lemmas for the generalized failure-mode and range-behavior theorems. -/

theorem rangeClosed_nil {a b : Int} (h : b < a) : rangeClosed a b = [] := by
  rw [rangeClosed, show (b - a + 1).toNat = 0 from by omega]
  rfl

theorem rangeClosed_cons {a b : Int} (h : a ≤ b) :
    rangeClosed a b = a :: rangeClosed (a + 1) b := by
  rw [rangeClosed, rangeClosed, show (b - a + 1).toNat = (b - (a + 1) + 1).toNat + 1 from by omega]
  rw [List.range_succ_eq_map, List.map_cons, List.map_map]
  rw [show ((fun i : Nat => a + (i : Int)) ∘ Nat.succ) = fun i : Nat => (a + 1) + (i : Int) from by
    funext i
    simp [Nat.succ_eq_add_one]
    ring]
  simp

theorem filterMap_none_eq_nil {α β : Type} :
    ∀ (xs : List α), xs.filterMap (fun _ => (none : Option β)) = []
  | [] => rfl
  | x :: xs => by
    rw [List.filterMap_cons]
    exact filterMap_none_eq_nil xs

/-- Evaluation of the per-drug calendar step for a single-day drug on its own
day: the `name`, `dose`, `route` reads in source order. -/
theorem drugOnDay_single_eval {kvs : List (String × PyVal)} {d : Int}
    (hday : (PyVal.vDict kvs).getField "day" = some (.vInt d)) :
    drugOnDay d (.vDict kvs) = (do
      let nm ← (PyVal.vDict kvs).getItem "name"
      let ds ← (PyVal.vDict kvs).getItem "dose"
      let rt ← (PyVal.vDict kvs).getItem "route"
      Except.ok (some ⟨nm, ds, rt⟩)) := by
  rw [drugOnDay, hasKey_of_getField_some hday, getItem_of_getField hday]
  simp only [ok_bind, beq_self_eq_true]
  rfl

/-- Inversion of a successful single-day read chain. -/
theorem singleChain_ok_inv {kvs : List (String × PyVal)} {r : Option DrugEntry}
    (hr : (do
      let nm ← (PyVal.vDict kvs).getItem "name"
      let ds ← (PyVal.vDict kvs).getItem "dose"
      let rt ← (PyVal.vDict kvs).getItem "route"
      Except.ok (some (⟨nm, ds, rt⟩ : DrugEntry))) = .ok r) :
    ∃ nmv dsv rtv,
      (PyVal.vDict kvs).getField "name" = some nmv ∧
      (PyVal.vDict kvs).getField "dose" = some dsv ∧
      (PyVal.vDict kvs).getField "route" = some rtv ∧
      r = some ⟨nmv, dsv, rtv⟩ := by
  cases hnm : (PyVal.vDict kvs).getItem "name" with
  | error e => rw [hnm] at hr; simp only [err_bind] at hr; cases hr
  | ok nmv =>
    rw [hnm] at hr
    simp only [ok_bind] at hr
    cases hds : (PyVal.vDict kvs).getItem "dose" with
    | error e => rw [hds] at hr; simp only [err_bind] at hr; cases hr
    | ok dsv =>
      rw [hds] at hr
      simp only [ok_bind] at hr
      cases hrt : (PyVal.vDict kvs).getItem "route" with
      | error e => rw [hrt] at hr; simp only [err_bind] at hr; cases hr
      | ok rtv =>
        rw [hrt] at hr
        simp only [ok_bind] at hr
        cases hr
        exact ⟨nmv, dsv, rtv, getField_of_getItem_ok hnm, getField_of_getItem_ok hds,
          getField_of_getItem_ok hrt, rfl⟩

/-- Inversion of a successful multi-day dose/name/route read chain. -/
theorem doseChain_ok_inv {kvs : List (String × PyVal)} {d : Int} {r : Option DrugEntry}
    (h1 : 1 ≤ d)
    (hr : (do
      let dose ← if d > 1 then (PyVal.vDict kvs).getItem "maintenance_dose"
        else (PyVal.vDict kvs).getItem "loading_dose"
      let nm ← (PyVal.vDict kvs).getItem "name"
      let rt ← (PyVal.vDict kvs).getItem "route"
      Except.ok (some (⟨nm, dose, rt⟩ : DrugEntry))) = .ok r) :
    ∃ nmv dov rtv,
      (PyVal.vDict kvs).getField "name" = some nmv ∧
      (PyVal.vDict kvs).getField "route" = some rtv ∧
      (if d = 1 then (PyVal.vDict kvs).getField "loading_dose"
        else (PyVal.vDict kvs).getField "maintenance_dose") = some dov ∧
      r = some ⟨nmv, dov, rtv⟩ := by
  by_cases hd1 : d = 1
  · subst hd1
    rw [if_neg (by omega)] at hr
    cases hload : (PyVal.vDict kvs).getItem "loading_dose" with
    | error e => rw [hload] at hr; simp only [err_bind] at hr; cases hr
    | ok dov =>
      rw [hload] at hr
      simp only [ok_bind] at hr
      cases hnm : (PyVal.vDict kvs).getItem "name" with
      | error e => rw [hnm] at hr; simp only [err_bind] at hr; cases hr
      | ok nmv =>
        rw [hnm] at hr
        simp only [ok_bind] at hr
        cases hrt : (PyVal.vDict kvs).getItem "route" with
        | error e => rw [hrt] at hr; simp only [err_bind] at hr; cases hr
        | ok rtv =>
          rw [hrt] at hr
          simp only [ok_bind] at hr
          cases hr
          exact ⟨nmv, dov, rtv, getField_of_getItem_ok hnm, getField_of_getItem_ok hrt,
            by rw [if_pos rfl]; exact getField_of_getItem_ok hload, rfl⟩
  · rw [if_pos (by omega)] at hr
    cases hload : (PyVal.vDict kvs).getItem "maintenance_dose" with
    | error e => rw [hload] at hr; simp only [err_bind] at hr; cases hr
    | ok dov =>
      rw [hload] at hr
      simp only [ok_bind] at hr
      cases hnm : (PyVal.vDict kvs).getItem "name" with
      | error e => rw [hnm] at hr; simp only [err_bind] at hr; cases hr
      | ok nmv =>
        rw [hnm] at hr
        simp only [ok_bind] at hr
        cases hrt : (PyVal.vDict kvs).getItem "route" with
        | error e => rw [hrt] at hr; simp only [err_bind] at hr; cases hr
        | ok rtv =>
          rw [hrt] at hr
          simp only [ok_bind] at hr
          cases hr
          exact ⟨nmv, dov, rtv, getField_of_getItem_ok hnm, getField_of_getItem_ok hrt,
            by rw [if_neg hd1]; exact getField_of_getItem_ok hload, rfl⟩

/-- Evaluation of the per-drug calendar step on day `d` for a drug carrying
both a non-matching `day` value and a `days` set containing `d`: the source's
`elif` fires and the multi-day dose chain runs. -/
theorem drugOnDay_both_eval {kvs : List (String × PyVal)} {dv d : Int} {dds : List PyVal}
    (hday : (PyVal.vDict kvs).getField "day" = some (.vInt dv))
    (hne : (dv == d) = false)
    (hdays : (PyVal.vDict kvs).getField "days" = some (.vList dds))
    (hd : listHasInt d dds = true) :
    drugOnDay d (.vDict kvs) = (do
      let dose ← if d > 1 then (PyVal.vDict kvs).getItem "maintenance_dose"
        else (PyVal.vDict kvs).getItem "loading_dose"
      let nm ← (PyVal.vDict kvs).getItem "name"
      let rt ← (PyVal.vDict kvs).getItem "route"
      Except.ok (some ⟨nm, dose, rt⟩)) := by
  rw [drugOnDay, hasKey_of_getField_some hday, getItem_of_getField hday,
    hasKey_of_getField_some hdays, getItem_of_getField hdays]
  simp only [ok_bind, pyMemInt_list, hne, hd]
  rfl

/-- A single-day drug processed successfully on its own day carries all three
fields, and the produced entry is its `(name, dose, route)` triple. -/
theorem drugOnDay_single_match {drug : PyVal} {d : Int} {r : Option DrugEntry}
    (hday : drug.getField "day" = some (.vInt d))
    (hr : drugOnDay d drug = .ok r) :
    ∃ nmv dsv rtv,
      drug.getField "name" = some nmv ∧
      drug.getField "dose" = some dsv ∧
      drug.getField "route" = some rtv ∧
      r = some ⟨nmv, dsv, rtv⟩ := by
  obtain ⟨kvs, hkvs⟩ := getField_dict_of_isSome hday
  subst hkvs
  rw [drugOnDay_single_eval hday] at hr
  exact singleChain_ok_inv hr

/-- A both-shaped drug processed successfully on a `days` member different
from its `day` value: the entry uses the multi-day dose rule. -/
theorem drugOnDay_both_match {drug : PyVal} {dv d : Int} {dds : List PyVal}
    {r : Option DrugEntry}
    (hday : drug.getField "day" = some (.vInt dv))
    (hne : (dv == d) = false)
    (hdays : drug.getField "days" = some (.vList dds))
    (hd : listHasInt d dds = true)
    (h1 : 1 ≤ d)
    (hr : drugOnDay d drug = .ok r) :
    ∃ nmv dov rtv,
      drug.getField "name" = some nmv ∧
      drug.getField "route" = some rtv ∧
      (if d = 1 then drug.getField "loading_dose"
        else drug.getField "maintenance_dose") = some dov ∧
      r = some ⟨nmv, dov, rtv⟩ := by
  obtain ⟨kvs, hkvs⟩ := getField_dict_of_isSome hday
  subst hkvs
  rw [drugOnDay_both_eval hday hne hdays hd] at hr
  exact doseChain_ok_inv h1 hr

/-- A multi-day drug (no `day` key) whose `days` set misses the current day is
not included, with no error and no field reads. -/
theorem drugOnDay_multi_nomatch {kvs : List (String × PyVal)} {day : Int} {dds : List PyVal}
    (hday : (PyVal.vDict kvs).getField "day" = none)
    (hdays : (PyVal.vDict kvs).getField "days" = some (.vList dds))
    (hmem : listHasInt day dds = false) :
    drugOnDay day (.vDict kvs) = .ok none := by
  rw [drugOnDay, hasKey_of_dict_getField_none hday, hasKey_of_getField_some hdays,
    getItem_of_getField hdays]
  simp only [ok_bind, pyMemInt_list, hmem]
  rfl

/-- An all-out-of-range `days` list never contains an in-range day. -/
theorem listHasInt_false_of_oor {cl day : Int} (h1 : 1 ≤ day) (h2 : day ≤ cl) :
    ∀ {dds : List PyVal},
      (dds.all fun v =>
        match v with
        | .vInt d => decide (d < 1 ∨ cl < d)
        | _ => true) = true →
      listHasInt day dds = false
  | [], _ => rfl
  | v :: dds, h => by
    rw [List.all_cons, Bool.and_eq_true] at h
    obtain ⟨hv, hds⟩ := h
    cases v with
    | vInt dd =>
      have hout : dd < 1 ∨ cl < dd := by simpa using hv
      have hne : (dd == day) = false := by
        apply beq_eq_false_iff_ne.mpr
        omega
      rw [show listHasInt day (PyVal.vInt dd :: dds) =
        ((dd == day) || listHasInt day dds) from rfl]
      rw [hne, listHasInt_false_of_oor h1 h2 hds]
      rfl
    | vStr s =>
      rw [show listHasInt day (PyVal.vStr s :: dds) = (false || listHasInt day dds) from rfl]
      rw [listHasInt_false_of_oor h1 h2 hds]
      rfl
    | vList xs =>
      rw [show listHasInt day (PyVal.vList xs :: dds) = (false || listHasInt day dds) from rfl]
      rw [listHasInt_false_of_oor h1 h2 hds]
      rfl
    | vDict kvs =>
      rw [show listHasInt day (PyVal.vDict kvs :: dds) = (false || listHasInt day dds) from rfl]
      rw [listHasInt_false_of_oor h1 h2 hds]
      rfl

/-- An out-of-range drug is silently omitted on every day of `[1, cl]`. -/
theorem drugOnDay_oor {drug : PyVal} {cl day : Int}
    (h : outOfRangeDrug cl drug = true) (h1 : 1 ≤ day) (h2 : day ≤ cl) :
    drugOnDay day drug = .ok none := by
  cases drug with
  | vDict kvs =>
    simp only [outOfRangeDrug, Bool.and_eq_true] at h
    obtain ⟨hdayp, hdaysp⟩ := h
    have hdays3 : (PyVal.vDict kvs).getField "days" = none ∨
        ∃ dds, (PyVal.vDict kvs).getField "days" = some (.vList dds) ∧
          listHasInt day dds = false := by
      rw [outOfRangeDays] at hdaysp
      cases hv : (PyVal.vDict kvs).getField "days" with
      | none => exact Or.inl rfl
      | some x =>
        rw [hv] at hdaysp
        cases x with
        | vList dds => exact Or.inr ⟨dds, rfl, listHasInt_false_of_oor h1 h2 hdaysp⟩
        | vStr s => cases hdaysp
        | vInt m => cases hdaysp
        | vDict kvs2 => cases hdaysp
    cases hdayv : (PyVal.vDict kvs).getField "day" with
    | none =>
      cases hdays3 with
      | inl hnone =>
        rw [drugOnDay, hasKey_of_dict_getField_none hdayv, hasKey_of_dict_getField_none hnone]
        rfl
      | inr hex =>
        obtain ⟨dds, hsome, hmem⟩ := hex
        exact drugOnDay_multi_nomatch hdayv hsome hmem
    | some v =>
      rw [hdayv] at hdayp
      cases v with
      | vInt dd =>
        have hout : dd < 1 ∨ cl < dd := by simpa using hdayp
        have hne : (dd == day) = false := by
          apply beq_eq_false_iff_ne.mpr
          omega
        cases hdays3 with
        | inl hnone => exact drugOnDay_single_nomatch hdayv hnone hne
        | inr hex =>
          obtain ⟨dds, hsome, hmem⟩ := hex
          rw [drugOnDay, hasKey_of_getField_some hdayv, getItem_of_getField hdayv,
            hasKey_of_getField_some hsome, getItem_of_getField hsome]
          simp only [ok_bind, pyMemInt_list, hne, hmem]
          rfl
      | vStr s => cases hdayp
      | vList xs => cases hdayp
      | vDict kvs2 => cases hdayp
  | vStr s => simp [outOfRangeDrug] at h
  | vInt n => simp [outOfRangeDrug] at h
  | vList xs => simp [outOfRangeDrug] at h

/-- A failure of the drug step on day 1 aborts resolution of a one-drug,
one-day course with that error. -/
theorem create_oneDrug_day1_err {drug : PyVal} {err : PyError}
    (h : drugOnDay 1 drug = .error err) (n : Int) :
    create_cycle_calendar (oneDrugCourse 1 drug) n = .error err := by
  rw [create_cycle_calendar,
    show (oneDrugCourse 1 drug).intItem "cycle_length" = .ok 1 from rfl, ok_bind,
    show rangeClosed 1 1 = [1] from rfl, exMap_cons]
  have hEntry : dayEntry (oneDrugCourse 1 drug) 1 = .error err := by
    rw [dayEntry,
      show (oneDrugCourse 1 drug).getItem "drugs" = .ok (.vList [drug]) from rfl, ok_bind,
      toListE_list, ok_bind, exFilterMap_cons, h]
    rfl
  rw [hEntry]

/-- A failure of the drug step on day 2 (after a clean day 1) aborts
resolution of a one-drug, two-day course with that error. -/
theorem create_oneDrug_twoDay_err {drug : PyVal} {err : PyError}
    (h1 : drugOnDay 1 drug = .ok none)
    (h2 : drugOnDay 2 drug = .error err) (n : Int) :
    create_cycle_calendar (oneDrugCourse 2 drug) n = .error err := by
  rw [create_cycle_calendar,
    show (oneDrugCourse 2 drug).intItem "cycle_length" = .ok 2 from rfl, ok_bind,
    show rangeClosed 1 2 = [1, 2] from rfl, exMap_cons]
  have hE1 : dayEntry (oneDrugCourse 2 drug) 1 = .ok ⟨1, [], false⟩ := by
    rw [dayEntry,
      show (oneDrugCourse 2 drug).getItem "drugs" = .ok (.vList [drug]) from rfl, ok_bind,
      toListE_list, ok_bind, exFilterMap_cons, h1]
    rfl
  have hE2 : dayEntry (oneDrugCourse 2 drug) 2 = .error err := by
    rw [dayEntry,
      show (oneDrugCourse 2 drug).getItem "drugs" = .ok (.vList [drug]) from rfl, ok_bind,
      toListE_list, ok_bind, exFilterMap_cons, h2]
    rfl
  rw [hE1, exMap_cons, hE2]

/-- Claim C6 (amended): a malformed drug record makes `create_cycle_calendar`
fail with a `KeyError` naming only the missing field, never the drug (no
`MissingFieldError` exists).  The conjuncts cover every required field of both
shapes, in the source's read order: for an included single-day drug `name`,
`dose`, `route`; for an included multi-day drug the selected dose —
`loading_dose` when the day is 1, `maintenance_dose` when it is greater —
then `name`, then `route`; and the course-level `cycle_length` and `drugs`
reads are failure modes of the same kind. -/
theorem missing_field_keyerror_amended (n : Int) :
    (∀ kvs : List (String × PyVal),
      (PyVal.vDict kvs).getField "day" = some (.vInt 1) →
      (PyVal.vDict kvs).getField "name" = none →
      create_cycle_calendar (oneDrugCourse 1 (.vDict kvs)) n = .error (.keyError "name")) ∧
    (∀ (kvs : List (String × PyVal)) (nmv : PyVal),
      (PyVal.vDict kvs).getField "day" = some (.vInt 1) →
      (PyVal.vDict kvs).getField "name" = some nmv →
      (PyVal.vDict kvs).getField "dose" = none →
      create_cycle_calendar (oneDrugCourse 1 (.vDict kvs)) n = .error (.keyError "dose")) ∧
    (∀ (kvs : List (String × PyVal)) (nmv dsv : PyVal),
      (PyVal.vDict kvs).getField "day" = some (.vInt 1) →
      (PyVal.vDict kvs).getField "name" = some nmv →
      (PyVal.vDict kvs).getField "dose" = some dsv →
      (PyVal.vDict kvs).getField "route" = none →
      create_cycle_calendar (oneDrugCourse 1 (.vDict kvs)) n = .error (.keyError "route")) ∧
    (∀ (kvs : List (String × PyVal)) (dds : List PyVal),
      (PyVal.vDict kvs).getField "day" = none →
      (PyVal.vDict kvs).getField "days" = some (.vList dds) →
      listHasInt 1 dds = true →
      (PyVal.vDict kvs).getField "loading_dose" = none →
      create_cycle_calendar (oneDrugCourse 1 (.vDict kvs)) n =
        .error (.keyError "loading_dose")) ∧
    (∀ (kvs : List (String × PyVal)) (dds : List PyVal),
      (PyVal.vDict kvs).getField "day" = none →
      (PyVal.vDict kvs).getField "days" = some (.vList dds) →
      listHasInt 1 dds = false →
      listHasInt 2 dds = true →
      (PyVal.vDict kvs).getField "maintenance_dose" = none →
      create_cycle_calendar (oneDrugCourse 2 (.vDict kvs)) n =
        .error (.keyError "maintenance_dose")) ∧
    (∀ (kvs : List (String × PyVal)) (dds : List PyVal) (ldv : PyVal),
      (PyVal.vDict kvs).getField "day" = none →
      (PyVal.vDict kvs).getField "days" = some (.vList dds) →
      listHasInt 1 dds = true →
      (PyVal.vDict kvs).getField "loading_dose" = some ldv →
      (PyVal.vDict kvs).getField "name" = none →
      create_cycle_calendar (oneDrugCourse 1 (.vDict kvs)) n = .error (.keyError "name")) ∧
    (∀ (kvs : List (String × PyVal)) (dds : List PyVal) (ldv nmv : PyVal),
      (PyVal.vDict kvs).getField "day" = none →
      (PyVal.vDict kvs).getField "days" = some (.vList dds) →
      listHasInt 1 dds = true →
      (PyVal.vDict kvs).getField "loading_dose" = some ldv →
      (PyVal.vDict kvs).getField "name" = some nmv →
      (PyVal.vDict kvs).getField "route" = none →
      create_cycle_calendar (oneDrugCourse 1 (.vDict kvs)) n = .error (.keyError "route")) ∧
    (∀ kvs2 : List (String × PyVal),
      (PyVal.vDict kvs2).getField "cycle_length" = none →
      create_cycle_calendar (.vDict kvs2) n = .error (.keyError "cycle_length")) ∧
    (∀ (kvs2 : List (String × PyVal)) (cl : Int),
      (PyVal.vDict kvs2).getField "cycle_length" = some (.vInt cl) → 1 ≤ cl →
      (PyVal.vDict kvs2).getField "drugs" = none →
      create_cycle_calendar (.vDict kvs2) n = .error (.keyError "drugs")) := by
  refine ⟨?_, ?_, ?_, ?_, ?_, ?_, ?_, ?_, ?_⟩
  · intro kvs hday hname
    refine create_oneDrug_day1_err ?_ n
    rw [drugOnDay_single_eval hday, getItem_none_of_getField hname]
    rfl
  · intro kvs nmv hday hname hdose
    refine create_oneDrug_day1_err ?_ n
    rw [drugOnDay_single_eval hday, getItem_of_getField hname,
      getItem_none_of_getField hdose]
    rfl
  · intro kvs nmv dsv hday hname hdose hroute
    refine create_oneDrug_day1_err ?_ n
    rw [drugOnDay_single_eval hday, getItem_of_getField hname, getItem_of_getField hdose,
      getItem_none_of_getField hroute]
    rfl
  · intro kvs dds hday hdays hd1 hload
    refine create_oneDrug_day1_err ?_ n
    rw [drugOnDay_multi_eval hday hdays hd1, if_neg (by omega),
      getItem_none_of_getField hload]
    rfl
  · intro kvs dds hday hdays hno1 hd2 hmaint
    refine create_oneDrug_twoDay_err (drugOnDay_multi_nomatch hday hdays hno1) ?_ n
    rw [drugOnDay_multi_eval hday hdays hd2, if_pos (by omega),
      getItem_none_of_getField hmaint]
    rfl
  · intro kvs dds ldv hday hdays hd1 hload hname
    refine create_oneDrug_day1_err ?_ n
    rw [drugOnDay_multi_eval hday hdays hd1, if_neg (by omega),
      getItem_of_getField hload, getItem_none_of_getField hname]
    rfl
  · intro kvs dds ldv nmv hday hdays hd1 hload hname hroute
    refine create_oneDrug_day1_err ?_ n
    rw [drugOnDay_multi_eval hday hdays hd1, if_neg (by omega),
      getItem_of_getField hload, getItem_of_getField hname,
      getItem_none_of_getField hroute]
    rfl
  · intro kvs2 hcl
    rw [create_cycle_calendar, PyVal.intItem, getItem_none_of_getField hcl]
    rfl
  · intro kvs2 cl hcl hcl1 hdr
    rw [create_cycle_calendar, intItem_of_getField hcl, ok_bind,
      rangeClosed_cons hcl1, exMap_cons]
    have hE : dayEntry (.vDict kvs2) 1 = .error (.keyError "drugs") := by
      rw [dayEntry, getItem_none_of_getField hdr]
      rfl
    rw [hE]

/-- Witness for the amended C6 theorem: one concrete instance per failure
mode, in the order of the conjuncts. -/
theorem missing_field_keyerror_amended_witness :
    create_cycle_calendar
      (oneDrugCourse 1 (.vDict [("day", .vInt 1), ("dose", .vStr "D"),
        ("route", .vStr "IV")])) 1 = .error (.keyError "name") ∧
    create_cycle_calendar
      (oneDrugCourse 1 (.vDict [("day", .vInt 1), ("name", .vStr "A")])) 1 =
      .error (.keyError "dose") ∧
    create_cycle_calendar
      (oneDrugCourse 1 (.vDict [("day", .vInt 1), ("name", .vStr "A"),
        ("dose", .vStr "D")])) 1 = .error (.keyError "route") ∧
    create_cycle_calendar
      (oneDrugCourse 1 (.vDict [("days", .vList [.vInt 1]),
        ("maintenance_dose", .vStr "M")])) 1 = .error (.keyError "loading_dose") ∧
    create_cycle_calendar
      (oneDrugCourse 2 (.vDict [("days", .vList [.vInt 2]),
        ("loading_dose", .vStr "L")])) 1 = .error (.keyError "maintenance_dose") ∧
    create_cycle_calendar
      (oneDrugCourse 1 (.vDict [("days", .vList [.vInt 1]),
        ("loading_dose", .vStr "L")])) 1 = .error (.keyError "name") ∧
    create_cycle_calendar
      (oneDrugCourse 1 (.vDict [("days", .vList [.vInt 1]), ("loading_dose", .vStr "L"),
        ("name", .vStr "A")])) 1 = .error (.keyError "route") ∧
    create_cycle_calendar (.vDict [("drugs", .vList [])]) 1 =
      .error (.keyError "cycle_length") ∧
    create_cycle_calendar (.vDict [("cycle_length", .vInt 3)]) 1 =
      .error (.keyError "drugs") :=
  ⟨(missing_field_keyerror_amended 1).1 _ rfl rfl,
   (missing_field_keyerror_amended 1).2.1 _ _ rfl rfl rfl,
   (missing_field_keyerror_amended 1).2.2.1 _ _ _ rfl rfl rfl rfl,
   (missing_field_keyerror_amended 1).2.2.2.1 _ _ rfl rfl (by decide) rfl,
   (missing_field_keyerror_amended 1).2.2.2.2.1 _ _ rfl rfl (by decide) (by decide) rfl,
   (missing_field_keyerror_amended 1).2.2.2.2.2.1 _ _ _ rfl rfl (by decide) rfl rfl,
   (missing_field_keyerror_amended 1).2.2.2.2.2.2.1 _ _ _ _ rfl rfl (by decide) rfl rfl rfl,
   (missing_field_keyerror_amended 1).2.2.2.2.2.2.2.1 _ rfl,
   (missing_field_keyerror_amended 1).2.2.2.2.2.2.2.2 _ _ rfl (by decide) rfl⟩

/-- Claim C7 (amended): the engine performs no range validation — no
`InvalidRangeError` exists.  In the cycle calendar, drugs whose `day` value
and `days` members all lie outside `[1, cycle_length]` are silently omitted
from every entry and resolution succeeds with all-empty days; in the timeline,
a single-day drug's event, and one event per `days` member of a multi-day
drug, are emitted regardless of range at the extrapolated date
`cycle_start + (d - 1)`; a non-positive `cycle_length` yields an empty
calendar and a non-positive `cycles` yields no timeline events for the
course — in each case without error. -/
theorem no_range_validation_amended :
    (∀ (course : PyVal) (n cl : Int) (ds : List PyVal),
      course.getField "cycle_length" = some (.vInt cl) →
      course.getField "drugs" = some (.vList ds) →
      (∀ drug ∈ ds, outOfRangeDrug cl drug = true) →
      create_cycle_calendar course n =
        .ok ((rangeClosed 1 cl).map fun day => ⟨day, [], false⟩)) ∧
    (∀ (drug cnm dnv : PyVal) (lbl : String) (cs d : Int),
      drug.getField "day" = some (.vInt d) →
      drug.getField "name" = some dnv →
      drugTimeline cnm lbl cs drug =
        .ok [⟨cnm, lbl, dnv, cs + (d - 1), cs + (d - 1) + 1⟩]) ∧
    (∀ (drug cnm dnv : PyVal) (lbl : String) (cs : Int) (dds : List PyVal),
      drug.getField "day" = none →
      drug.getField "days" = some (.vList dds) →
      (dds.all fun v => match v with | .vInt _ => true | _ => false) = true →
      drug.getField "name" = some dnv →
      drugTimeline cnm lbl cs drug =
        .ok (dds.map fun v =>
          ⟨cnm, lbl, dnv, cs + (toIntD v - 1), cs + (toIntD v - 1) + 1⟩)) ∧
    (∀ (course : PyVal) (n cl : Int),
      course.getField "cycle_length" = some (.vInt cl) → cl ≤ 0 →
      create_cycle_calendar course n = .ok []) ∧
    (∀ (course nmv : PyVal) (now cl cy : Int),
      course.getField "name" = some nmv →
      course.getField "cycle_length" = some (.vInt cl) →
      course.getField "cycles" = some (.vInt cy) → cy ≤ 0 →
      timelineGo [course] now = .ok []) := by
  refine ⟨?_, ?_, ?_, ?_, ?_⟩
  · intro course n cl ds hcl hds hall
    rw [create_cycle_calendar, intItem_of_getField hcl, ok_bind]
    refine exMap_congr fun day hdmem => ?_
    obtain ⟨hd1, hd2⟩ := mem_rangeClosed.mp hdmem
    rw [dayEntry, getItem_of_getField hds, ok_bind, toListE_list, ok_bind]
    rw [exFilterMap_congr (g := fun _ => none)
      fun drug hdr => drugOnDay_oor (hall drug hdr) hd1 hd2]
    rw [filterMap_none_eq_nil ds]
    rfl
  · intro drug cnm dnv lbl cs d hday hnm
    exact drugTimeline_single hday hnm cnm lbl cs
  · intro drug cnm dnv lbl cs dds hday hdays hints hnm
    obtain ⟨kvs, hkvs⟩ := getField_dict_of_isSome hdays
    subst hkvs
    have hwf : drugWF (.vDict kvs) = true := by
      simp only [drugWF, hday, hdays]
      rw [hints, hnm]
      rfl
    rw [drugTimeline_wf hwf cnm lbl cs]
    rw [show specAdminDays (.vDict kvs) =
      dds.filterMap (fun v => match v with | .vInt m => some m | _ => none) from by
        rw [specAdminDays, hday, hdays]]
    rw [ints_filterMap_map _ hints]
    rw [fieldD_of_getField hnm]
  · intro course n cl hcl hnp
    rw [create_cycle_calendar, intItem_of_getField hcl, ok_bind,
      rangeClosed_nil (by omega)]
    rfl
  · intro course nmv now cl cy hnm hcl hcy hnp
    simp only [timelineGo, getItem_of_getField hnm, intItem_of_getField hcl,
      intItem_of_getField hcy, ok_bind]
    rw [rangeClosed_nil (by omega)]
    rfl

/-- Witness for the amended C7 theorem: a 2-day cycle with an out-of-range
single-day drug (day 5) and an out-of-range multi-day drug (days {0, 7});
the timeline still emits their events; `cycle_length = 0` and `cycles = 0`
give empty outputs. -/
theorem no_range_validation_amended_witness :
    create_cycle_calendar
      (.vDict [("cycle_length", .vInt 2), ("cycles", .vInt 1),
        ("drugs", .vList
          [.vDict [("name", .vStr "A"), ("day", .vInt 5), ("dose", .vStr "D"),
            ("route", .vStr "IV")],
           .vDict [("name", .vStr "B"), ("days", .vList [.vInt 0, .vInt 7]),
            ("maintenance_dose", .vStr "M"), ("route", .vStr "IV")]])]) 1 =
      .ok ((rangeClosed 1 2).map fun day => ⟨day, [], false⟩) ∧
    drugTimeline (.vStr "C") "Cycle 1" 0
      (.vDict [("name", .vStr "A"), ("day", .vInt 5), ("dose", .vStr "D"),
        ("route", .vStr "IV")]) =
      .ok [⟨.vStr "C", "Cycle 1", .vStr "A", 0 + (5 - 1), 0 + (5 - 1) + 1⟩] ∧
    drugTimeline (.vStr "C") "Cycle 1" 0
      (.vDict [("name", .vStr "B"), ("days", .vList [.vInt 0, .vInt 7]),
        ("maintenance_dose", .vStr "M"), ("route", .vStr "IV")]) =
      .ok ([.vInt 0, .vInt 7].map fun v =>
        ⟨.vStr "C", "Cycle 1", .vStr "B", 0 + (toIntD v - 1), 0 + (toIntD v - 1) + 1⟩) ∧
    create_cycle_calendar (.vDict [("cycle_length", .vInt 0)]) 1 = .ok [] ∧
    timelineGo [.vDict [("name", .vStr "Z"), ("cycle_length", .vInt 3),
      ("cycles", .vInt 0)]] 7 = .ok [] :=
  ⟨no_range_validation_amended.1 _ 1 2 _ rfl rfl (by decide),
   no_range_validation_amended.2.1 _ (.vStr "C") (.vStr "A") "Cycle 1" 0 5 rfl rfl,
   no_range_validation_amended.2.2.1 _ (.vStr "C") (.vStr "B") "Cycle 1" 0
     [.vInt 0, .vInt 7] rfl rfl (by decide) rfl,
   no_range_validation_amended.2.2.2.1 _ 1 0 rfl (by decide),
   no_range_validation_amended.2.2.2.2 _ (.vStr "Z") 7 3 0 rfl rfl rfl (by decide)⟩

/-- Claim C9 (amended): only `create_treatment_timeline` treats a drug having
both `day` and `days` exclusively as single-day — whenever `"day"` is present
its `elif` is unreachable, so exactly one event per cycle is emitted from the
`day` value, ignoring `days` and all dose fields (first conjunct).
`create_cycle_calendar` instead schedules such a drug on its `day` value with
its `dose` field (second conjunct) and additionally on every member of `days`
different from the `day` value with the loading/maintenance dose selected by
the day-1 rule (third conjunct); neither resolver signals an error for the
double shape itself. -/
theorem both_day_days_amended :
    (∀ (drug cnm dnv : PyVal) (lbl : String) (cs d : Int),
      drug.getField "day" = some (.vInt d) →
      drug.getField "name" = some dnv →
      drugTimeline cnm lbl cs drug =
        .ok [⟨cnm, lbl, dnv, cs + (d - 1), cs + (d - 1) + 1⟩]) ∧
    (∀ (course drug : PyVal) (n dv cl : Int) (cal : List CycleDayEntry) (ds : List PyVal),
      create_cycle_calendar course n = .ok cal →
      course.getField "cycle_length" = some (.vInt cl) →
      course.getField "drugs" = some (.vList ds) →
      drug ∈ ds →
      drug.getField "day" = some (.vInt dv) →
      1 ≤ dv → dv ≤ cl →
      ∃ e ∈ cal, e.day = dv ∧
        ∃ ent ∈ e.drugs,
          ent.name = fieldD drug "name" ∧
          ent.dose = fieldD drug "dose" ∧
          ent.route = fieldD drug "route") ∧
    (∀ (course drug : PyVal) (n dv d cl : Int) (cal : List CycleDayEntry)
        (ds dds : List PyVal),
      create_cycle_calendar course n = .ok cal →
      course.getField "cycle_length" = some (.vInt cl) →
      course.getField "drugs" = some (.vList ds) →
      drug ∈ ds →
      drug.getField "day" = some (.vInt dv) →
      drug.getField "days" = some (.vList dds) →
      listHasInt d dds = true →
      (dv == d) = false →
      1 ≤ d → d ≤ cl →
      ∃ e ∈ cal, e.day = d ∧
        ∃ ent ∈ e.drugs,
          ent.name = fieldD drug "name" ∧
          ent.dose = (if d = 1 then fieldD drug "loading_dose"
            else fieldD drug "maintenance_dose") ∧
          ent.route = fieldD drug "route") := by
  refine ⟨?_, ?_, ?_⟩
  · intro drug cnm dnv lbl cs d hday hnm
    exact drugTimeline_single hday hnm cnm lbl cs
  · intro course drug n dv cl cal ds hok hcl hds hmem hday h1 h2
    have hmap := create_cycle_calendar_ok_inv hcl hok
    have hdmem : dv ∈ rangeClosed 1 cl := mem_rangeClosed.mpr ⟨h1, h2⟩
    obtain ⟨e, he, hde⟩ := exMap_mem hmap hdmem
    have hfm := dayEntry_ok_inv hds hde
    obtain ⟨r, hr⟩ := exFilterMap_success hfm hmem
    obtain ⟨nmv, dsv, rtv, hnm, hdo, hrt, hrEq⟩ := drugOnDay_single_match hday hr
    subst hrEq
    have hent : (⟨nmv, dsv, rtv⟩ : DrugEntry) ∈ e.drugs := exFilterMap_sound hfm hmem hr
    exact ⟨e, he, (dayEntry_ok_shape hde).1, ⟨nmv, dsv, rtv⟩, hent,
      (fieldD_of_getField hnm).symm, (fieldD_of_getField hdo).symm,
      (fieldD_of_getField hrt).symm⟩
  · intro course drug n dv d cl cal ds dds hok hcl hds hmem hday hdays hd hne h1 h2
    have hmap := create_cycle_calendar_ok_inv hcl hok
    have hdmem : d ∈ rangeClosed 1 cl := mem_rangeClosed.mpr ⟨h1, h2⟩
    obtain ⟨e, he, hde⟩ := exMap_mem hmap hdmem
    have hfm := dayEntry_ok_inv hds hde
    obtain ⟨r, hr⟩ := exFilterMap_success hfm hmem
    obtain ⟨nmv, dov, rtv, hnm, hrt, hdose, hrEq⟩ :=
      drugOnDay_both_match hday hne hdays hd h1 hr
    subst hrEq
    have hent : (⟨nmv, dov, rtv⟩ : DrugEntry) ∈ e.drugs := exFilterMap_sound hfm hmem hr
    refine ⟨e, he, (dayEntry_ok_shape hde).1, ⟨nmv, dov, rtv⟩, hent,
      (fieldD_of_getField hnm).symm, ?_, (fieldD_of_getField hrt).symm⟩
    by_cases hd1 : d = 1
    · subst hd1
      rw [if_pos rfl] at hdose ⊢
      exact (fieldD_of_getField hdose).symm
    · rw [if_neg hd1] at hdose ⊢
      exact (fieldD_of_getField hdose).symm

/-- Witness for the amended C9 theorem at the concrete both-shaped drug
(`day = 1` with dose `"D"`, `days = {2}` with `maintenance_dose "M"`): the
timeline emits the single day-1 event, while the calendar carries the drug on
day 1 with `"D"` and on day 2 with `"M"`. -/
theorem both_day_days_amended_witness :
    drugTimeline (.vStr "C") "Cycle 1" 10
      (.vDict [("name", .vStr "X"), ("day", .vInt 1), ("dose", .vStr "D"),
        ("route", .vStr "IV"), ("days", .vList [.vInt 2]),
        ("maintenance_dose", .vStr "M")]) =
      .ok [⟨.vStr "C", "Cycle 1", .vStr "X", 10 + (1 - 1), 10 + (1 - 1) + 1⟩] ∧
    (∃ e ∈ [(⟨1, [⟨.vStr "X", .vStr "D", .vStr "IV"⟩], true⟩ : CycleDayEntry),
        ⟨2, [⟨.vStr "X", .vStr "M", .vStr "IV"⟩], true⟩], e.day = (1 : Int) ∧
      ∃ ent ∈ e.drugs,
        ent.name = fieldD (.vDict [("name", .vStr "X"), ("day", .vInt 1),
          ("dose", .vStr "D"), ("route", .vStr "IV"), ("days", .vList [.vInt 2]),
          ("maintenance_dose", .vStr "M")]) "name" ∧
        ent.dose = fieldD (.vDict [("name", .vStr "X"), ("day", .vInt 1),
          ("dose", .vStr "D"), ("route", .vStr "IV"), ("days", .vList [.vInt 2]),
          ("maintenance_dose", .vStr "M")]) "dose" ∧
        ent.route = fieldD (.vDict [("name", .vStr "X"), ("day", .vInt 1),
          ("dose", .vStr "D"), ("route", .vStr "IV"), ("days", .vList [.vInt 2]),
          ("maintenance_dose", .vStr "M")]) "route") ∧
    (∃ e ∈ [(⟨1, [⟨.vStr "X", .vStr "D", .vStr "IV"⟩], true⟩ : CycleDayEntry),
        ⟨2, [⟨.vStr "X", .vStr "M", .vStr "IV"⟩], true⟩], e.day = (2 : Int) ∧
      ∃ ent ∈ e.drugs,
        ent.name = fieldD (.vDict [("name", .vStr "X"), ("day", .vInt 1),
          ("dose", .vStr "D"), ("route", .vStr "IV"), ("days", .vList [.vInt 2]),
          ("maintenance_dose", .vStr "M")]) "name" ∧
        ent.dose = (if (2 : Int) = 1 then
            fieldD (.vDict [("name", .vStr "X"), ("day", .vInt 1),
              ("dose", .vStr "D"), ("route", .vStr "IV"), ("days", .vList [.vInt 2]),
              ("maintenance_dose", .vStr "M")]) "loading_dose"
          else fieldD (.vDict [("name", .vStr "X"), ("day", .vInt 1),
              ("dose", .vStr "D"), ("route", .vStr "IV"), ("days", .vList [.vInt 2]),
              ("maintenance_dose", .vStr "M")]) "maintenance_dose") ∧
        ent.route = fieldD (.vDict [("name", .vStr "X"), ("day", .vInt 1),
          ("dose", .vStr "D"), ("route", .vStr "IV"), ("days", .vList [.vInt 2]),
          ("maintenance_dose", .vStr "M")]) "route") :=
  ⟨both_day_days_amended.1 _ (.vStr "C") (.vStr "X") "Cycle 1" 10 1 rfl rfl,
   both_day_days_amended.2.1
     (.vDict [("cycle_length", .vInt 2),
       ("drugs", .vList [.vDict [("name", .vStr "X"), ("day", .vInt 1),
         ("dose", .vStr "D"), ("route", .vStr "IV"), ("days", .vList [.vInt 2]),
         ("maintenance_dose", .vStr "M")]])])
     (.vDict [("name", .vStr "X"), ("day", .vInt 1), ("dose", .vStr "D"),
       ("route", .vStr "IV"), ("days", .vList [.vInt 2]),
       ("maintenance_dose", .vStr "M")])
     1 1 2
     [⟨1, [⟨.vStr "X", .vStr "D", .vStr "IV"⟩], true⟩,
      ⟨2, [⟨.vStr "X", .vStr "M", .vStr "IV"⟩], true⟩]
     [.vDict [("name", .vStr "X"), ("day", .vInt 1), ("dose", .vStr "D"),
       ("route", .vStr "IV"), ("days", .vList [.vInt 2]),
       ("maintenance_dose", .vStr "M")]]
     rfl rfl rfl (List.mem_singleton.mpr rfl) rfl (by decide) (by decide),
   both_day_days_amended.2.2
     (.vDict [("cycle_length", .vInt 2),
       ("drugs", .vList [.vDict [("name", .vStr "X"), ("day", .vInt 1),
         ("dose", .vStr "D"), ("route", .vStr "IV"), ("days", .vList [.vInt 2]),
         ("maintenance_dose", .vStr "M")]])])
     (.vDict [("name", .vStr "X"), ("day", .vInt 1), ("dose", .vStr "D"),
       ("route", .vStr "IV"), ("days", .vList [.vInt 2]),
       ("maintenance_dose", .vStr "M")])
     1 1 2 2
     [⟨1, [⟨.vStr "X", .vStr "D", .vStr "IV"⟩], true⟩,
      ⟨2, [⟨.vStr "X", .vStr "M", .vStr "IV"⟩], true⟩]
     [.vDict [("name", .vStr "X"), ("day", .vInt 1), ("dose", .vStr "D"),
       ("route", .vStr "IV"), ("days", .vList [.vInt 2]),
       ("maintenance_dose", .vStr "M")]]
     [.vInt 2]
     rfl rfl rfl (List.mem_singleton.mpr rfl) rfl rfl (by decide) (by decide)
     (by decide) (by decide)⟩
